import Mathlib

/-!
Verification development for the Pascal-like-to-WebAssembly compiler
(semantic analyzer in `semantics.h`, binary emitter in `wasm_compiler.cpp`).

The development shallowly embeds the data model and the passes the claims
touch.  C++ `std::shared_ptr<ASTNode>` trees are embedded as a pure
inductive tree; `ASTNode::addChild` drops null children, so parser-built
trees contain no nulls and the embedding carries none.  `std::set` /
`std::map` members of the analyzer are embedded as association lists with
first-match lookup; only membership / lookup semantics are relied on.
Machine integers (`int`, `long long`) are embedded as `Int` with explicit
wrapping where the source can overflow; `double` literals are embedded as
`Rat` (the claims below never depend on binary floating-point rounding).
-/

set_option maxRecDepth 4000

/-- Mirror of `enum class ASTNodeType` from `ast.h`. -/
inductive ASTNodeType where
  | PROGRAM | VAR_DECL | TYPE_DECL | ROUTINE_DECL | ROUTINE_FORWARD_DECL
  | PARAMETER | PRIMITIVE_TYPE | ARRAY_TYPE | RECORD_TYPE | USER_TYPE
  | BINARY_OP | UNARY_OP | LITERAL_INT | LITERAL_REAL | LITERAL_BOOL
  | LITERAL_STRING | IDENTIFIER | ROUTINE_CALL | ARRAY_ACCESS
  | MEMBER_ACCESS | SIZE_EXPRESSION | ASSIGNMENT | IF_STMT | WHILE_LOOP
  | FOR_LOOP | PRINT_STMT | RETURN_STMT | BODY | EXPRESSION_LIST
  | PARAMETER_LIST | ARGUMENT_LIST | RANGE
  deriving DecidableEq, Repr

/-- Mirror of `class ASTNode` from `ast.h`: a kind tag, a textual value and
an ordered child list (null children never occur, see the header comment). -/
inductive ASTNode where
  | node (t : ASTNodeType) (v : String) (children : List ASTNode)
  deriving Repr

def ASTNode.typ : ASTNode → ASTNodeType
  | .node t _ _ => t

def ASTNode.val : ASTNode → String
  | .node _ v _ => v

def ASTNode.children : ASTNode → List ASTNode
  | .node _ _ cs => cs

mutual
def ASTNode.beq : ASTNode → ASTNode → Bool
  | .node t v cs, .node t' v' cs' => t = t' && v = v' && ASTNode.beqList cs cs'
def ASTNode.beqList : List ASTNode → List ASTNode → Bool
  | [], [] => true
  | c :: cs, c' :: cs' => ASTNode.beq c c' && ASTNode.beqList cs cs'
  | _, _ => false
end

instance : BEq ASTNode := ⟨ASTNode.beq⟩

mutual
theorem ASTNode.beq_iff : ∀ a b : ASTNode, ASTNode.beq a b = true ↔ a = b
  | .node t v cs, .node t' v' cs' => by
    simp only [ASTNode.beq, Bool.and_eq_true, decide_eq_true_eq, ASTNode.node.injEq]
    constructor
    · rintro ⟨⟨h1, h2⟩, h3⟩
      exact ⟨h1, h2, (ASTNode.beqList_iff cs cs').1 h3⟩
    · rintro ⟨h1, h2, h3⟩
      exact ⟨⟨h1, h2⟩, (ASTNode.beqList_iff cs cs').2 h3⟩
theorem ASTNode.beqList_iff : ∀ l l' : List ASTNode, ASTNode.beqList l l' = true ↔ l = l'
  | [], [] => by simp [ASTNode.beqList]
  | [], _ :: _ => by simp [ASTNode.beqList]
  | _ :: _, [] => by simp [ASTNode.beqList]
  | c :: cs, c' :: cs' => by
    simp only [ASTNode.beqList, Bool.and_eq_true, List.cons.injEq]
    constructor
    · rintro ⟨h1, h2⟩
      exact ⟨(ASTNode.beq_iff c c').1 h1, (ASTNode.beqList_iff cs cs').1 h2⟩
    · rintro ⟨h1, h2⟩
      exact ⟨(ASTNode.beq_iff c c').2 h1, (ASTNode.beqList_iff cs cs').2 h2⟩
end

instance : DecidableEq ASTNode := fun a b =>
  decidable_of_iff (ASTNode.beq a b = true) (ASTNode.beq_iff a b)

/-- Short constructor helpers used when spelling out concrete programs. -/
def mkN (t : ASTNodeType) (v : String) (cs : List ASTNode) : ASTNode := .node t v cs

def ilit (s : String) : ASTNode := .node .LITERAL_INT s []
def rlit (s : String) : ASTNode := .node .LITERAL_REAL s []
def blit (s : String) : ASTNode := .node .LITERAL_BOOL s []
def ident (s : String) : ASTNode := .node .IDENTIFIER s []

/-! ## Number parsing (models of `std::stoll`, `std::stoi`, `std::stod`)

`std::stoll` skips optional sign, then consumes the longest digit prefix;
it throws when no digit is present or the value is out of `long long`
range.  Source literals come from the lexer (pure digit strings) or from
`std::to_string` output, so the simple decimal grammar below covers every
string the folder can see.  A parse failure is `none` (the C++ throws; in
`foldConstantsInPlace` the throw is caught and the node is left unchanged). -/

def digitsToNat (l : List Char) : Option Nat :=
  if l = [] ∨ l.any (fun c => ¬ c.isDigit) then none
  else some (l.foldl (fun a c => a * 10 + (c.toNat - 48)) 0)

/-- Split a character list into sign, digit prefix and rest. -/
def splitSign (l : List Char) : Bool × List Char :=
  match l with
  | '-' :: r => (true, r)
  | '+' :: r => (false, r)
  | r => (false, r)

/-- Model of `std::stoll` restricted to sign + digits (trailing garbage
ignored by stoll is not produced by the lexer; we require pure digits). -/
def parseIntLL (s : String) : Option Int :=
  let (neg, r) := splitSign s.toList
  match digitsToNat r with
  | none => none
  | some n =>
      let v : Int := if neg then -(n : Int) else (n : Int)
      if v < -(2 ^ 63) ∨ 2 ^ 63 ≤ v then none else some v

/-- Model of `std::stoi` (32-bit range check). -/
def parseInt32 (s : String) : Option Int :=
  let (neg, r) := splitSign s.toList
  match digitsToNat r with
  | none => none
  | some n =>
      let v : Int := if neg then -(n : Int) else (n : Int)
      if v < -(2 ^ 31) ∨ 2 ^ 31 ≤ v then none else some v

/-- Model of `std::stod` on `digits[.digits]` decimal strings, as `Rat`. -/
def parseRealD (s : String) : Option Rat :=
  let (neg, r) := splitSign s.toList
  let intPart := r.takeWhile (fun c => c.isDigit)
  let rest := r.drop intPart.length
  let fracPart : List Char :=
    match rest with
    | '.' :: t => t.takeWhile (fun c => c.isDigit)
    | _ => []
  if intPart = [] ∧ fracPart = [] then none
  else
    let iv : Nat := intPart.foldl (fun a c => a * 10 + (c.toNat - 48)) 0
    let fv : Nat := fracPart.foldl (fun a c => a * 10 + (c.toNat - 48)) 0
    let q : Rat := (iv : Rat) + (fv : Rat) / ((10 : Rat) ^ fracPart.length)
    some (if neg then -q else q)

/-- Two's-complement wrap into the signed 64-bit range (`long long`
arithmetic in the folder; the spec fixes wrap-around semantics). -/
def wrap64 (v : Int) : Int := (v + 2 ^ 63) % 2 ^ 64 - 2 ^ 63

/-- Two's-complement wrap into the signed 32-bit range (`int32_t`). -/
def wrap32 (v : Int) : Int := (v + 2 ^ 31) % 2 ^ 32 - 2 ^ 31

/-- Model of `std::to_string(double)`: `%f` with six fractional digits,
rounding half away from zero (exact printf tie behaviour is irrelevant to
every claim; no claim inspects the produced digits). -/
def doubleToString (q : Rat) : String :=
  let sgn : String := if q < 0 then "-" else ""
  let m : Rat := |q|
  let scaled : Nat := (m * 1000000 + 1 / 2).floor.toNat
  let ip := scaled / 1000000
  let fp := scaled % 1000000
  let fs := toString fp
  let pad := String.mk (List.replicate (6 - fs.length) '0')
  sgn ++ toString ip ++ "." ++ pad ++ fs

/-! ## Constant folder (`SemanticAnalyzer::foldConstantsInPlace`)

The C++ pass folds children first, then possibly replaces the node by a
freshly constructed literal.  Every replacement the source builds is
`make_shared<ASTNode>(LITERAL_*, string)`, captured here by `Lit`.  Inside
the binary-op `try` block a thrown `std::sto*` exception aborts the whole
block and is swallowed, leaving the node unchanged; returning `none` from a
branch models both the exception and the explicit fall-through (the two are
outcome-equivalent: an op that fails to parse in one branch can never be
folded by a later branch, because the later branches test a disjoint set of
operators or repeat the same parse). -/

inductive Lit where
  | i (s : String) | r (s : String) | b (s : String)
  deriving DecidableEq, Repr

def Lit.toNode : Lit → ASTNode
  | .i s => .node .LITERAL_INT s []
  | .r s => .node .LITERAL_REAL s []
  | .b s => .node .LITERAL_BOOL s []

def isIntLit (n : ASTNode) : Bool := n.typ = .LITERAL_INT
def isRealLit (n : ASTNode) : Bool := n.typ = .LITERAL_REAL
def isBoolLit (n : ASTNode) : Bool := n.typ = .LITERAL_BOOL

def isCmpOp (op : String) : Bool :=
  op = "<" || op = "<=" || op = ">" || op = ">=" || op = "=" || op = "/="

/-- The unary-op portion of `foldConstantsInPlace` (semantics.h 230-256). -/
def unaryFold (op : String) (arg : ASTNode) : Option Lit :=
  if op = "not" && isBoolLit arg then
    some (.b (if arg.val = "true" then "false" else "true"))
  else if (op = "+" || op = "-") && isIntLit arg then
    match parseIntLL arg.val with
    | some v => some (.i (toString (if op = "-" then wrap64 (-v) else v)))
    | none => none
  else if (op = "+" || op = "-") && isRealLit arg then
    match parseRealD arg.val with
    | some v => some (.r (doubleToString (if op = "-" then -v else v)))
    | none => none
  else none

def cmpIntFold (op : String) (a b : Int) : Lit :=
  .b (if (if op = "<" then decide (a < b)
          else if op = "<=" then decide (a ≤ b)
          else if op = ">" then decide (a > b)
          else if op = ">=" then decide (a ≥ b)
          else if op = "=" then decide (a = b)
          else decide (a ≠ b)) then "true" else "false")

def cmpRealFold (op : String) (a b : Rat) : Lit :=
  .b (if (if op = "<" then decide (a < b)
          else if op = "<=" then decide (a ≤ b)
          else if op = ">" then decide (a > b)
          else if op = ">=" then decide (a ≥ b)
          else if op = "=" then decide (a = b)
          else decide (a ≠ b)) then "true" else "false")

/-- The binary-op portion of `foldConstantsInPlace` (semantics.h 259-371),
branch for branch in source order.  `none` = node left unchanged. -/
def binFold (op : String) (L R : ASTNode) : Option Lit :=
  -- Boolean operations
  if (op = "and" || op = "or" || op = "xor") && isBoolLit L && isBoolLit R then
    let a : Bool := L.val == "true"
    let b : Bool := R.val == "true"
    some (.b (if (if op = "and" then a && b else if op = "or" then a || b else a != b)
              then "true" else "false"))
  -- Comparison operations
  else if isCmpOp op && isIntLit L && isIntLit R then
    match parseIntLL L.val, parseIntLL R.val with
    | some a, some b => some (cmpIntFold op a b)
    | _, _ => none
  else if isCmpOp op && (isRealLit L || isIntLit L) && (isRealLit R || isIntLit R)
          && (isRealLit L || isRealLit R) then
    match parseRealD L.val, parseRealD R.val with
    | some a, some b => some (cmpRealFold op a b)
    | _, _ => none
  else if isCmpOp op && isBoolLit L && isBoolLit R && (op = "=" || op = "/=") then
    let a : Bool := L.val == "true"
    let b : Bool := R.val == "true"
    some (.b (if (if op = "=" then a == b else a != b) then "true" else "false"))
  -- Arithmetic over integers ("/" is deliberately absent: division not folded)
  else if isIntLit L && isIntLit R then
    match parseIntLL L.val, parseIntLL R.val with
    | some a, some b =>
        if op = "+" then some (.i (toString (wrap64 (a + b))))
        else if op = "-" then some (.i (toString (wrap64 (a - b))))
        else if op = "*" then some (.i (toString (wrap64 (a * b))))
        else if op = "%" && b ≠ 0 then some (.i (toString (Int.tmod a b)))
        else none
    | _, _ => none
  -- Arithmetic with reals (or mixed); "/" only when the divisor is nonzero
  else if (isRealLit L || isIntLit L) && (isRealLit R || isIntLit R)
          && (isRealLit L || isRealLit R) then
    match parseRealD L.val, parseRealD R.val with
    | some a, some b =>
        if op = "+" then some (.r (doubleToString (a + b)))
        else if op = "-" then some (.r (doubleToString (a - b)))
        else if op = "*" then some (.r (doubleToString (a * b)))
        else if op = "/" && b ≠ 0 then some (.r (doubleToString (a / b)))
        else none
    | _, _ => none
  else none

/-- Node-level rewrite applied after the children have been folded. -/
def foldStep (t : ASTNodeType) (v : String) (cs : List ASTNode) : ASTNode :=
  match t, cs with
  | .UNARY_OP, arg :: rest =>
      (match unaryFold v arg with
       | some l => l.toNode
       | none => .node .UNARY_OP v (arg :: rest))
  | .BINARY_OP, L :: R :: rest =>
      (match binFold v L R with
       | some l => l.toNode
       | none => .node .BINARY_OP v (L :: R :: rest))
  | t, cs => .node t v cs

mutual
/-- `SemanticAnalyzer::foldConstantsInPlace`: fold all children first, then
rewrite the node itself. -/
def foldConstantsInPlace : ASTNode → ASTNode
  | .node t v cs => foldStep t v (foldChildren cs)
def foldChildren : List ASTNode → List ASTNode
  | [] => []
  | c :: cs => foldConstantsInPlace c :: foldChildren cs
end

/-! ## Set / map helpers

`std::set<std::string>` and `std::map` / `std::unordered_map` members of
`SemanticAnalyzer` are embedded as lists with first-match lookup; only
membership and lookup are ever used by the embedded passes. -/

def insertS (s : String) (l : List String) : List String :=
  if l.contains s then l else l ++ [s]

def lookupA {α : Type} : List (String × α) → String → Option α
  | [], _ => none
  | (k', v') :: r, k => if k' = k then some v' else lookupA r k

def setA {α : Type} : List (String × α) → String → α → List (String × α)
  | [], k, v => [(k, v)]
  | (k', v') :: r, k, v => if k' = k then (k, v) :: r else (k', v') :: setA r k v

def eraseA {α : Type} (m : List (String × α)) (k : String) : List (String × α) :=
  m.filter (fun p => p.1 ≠ k)

/-! ## Declaration / type collection passes (`semantics.h`) -/

mutual
/-- `SemanticAnalyzer::trackGlobalVariables`: `VAR_DECL` direct children of
`PROGRAM` are globals; recursion skips routine declarations. -/
def trackGlobalVariables (n : ASTNode) (acc : List String) : List String :=
  match n with
  | .node t _ cs =>
    let acc :=
      if t = .PROGRAM then
        cs.foldl (fun a c => if c.typ = .VAR_DECL then insertS c.val a else a) acc
      else acc
    if t ≠ .ROUTINE_DECL ∧ t ≠ .ROUTINE_FORWARD_DECL then
      trackGlobalVariablesList cs acc
    else acc
def trackGlobalVariablesList (l : List ASTNode) (acc : List String) : List String :=
  match l with
  | [] => acc
  | c :: cs => trackGlobalVariablesList cs (trackGlobalVariables c acc)
end

mutual
/-- `SemanticAnalyzer::collectAllDeclarations` (declared identifier set). -/
def collectAllDeclarations (n : ASTNode) (acc : List String) : List String :=
  match n with
  | .node t v cs =>
    let acc :=
      match t with
      | .VAR_DECL => insertS v acc
      | .PARAMETER => insertS v acc
      | .ROUTINE_DECL => insertS v acc
      | .ROUTINE_FORWARD_DECL => insertS v acc
      | _ => acc
    collectAllDeclarationsList cs acc
def collectAllDeclarationsList (l : List ASTNode) (acc : List String) : List String :=
  match l with
  | [] => acc
  | c :: cs => collectAllDeclarationsList cs (collectAllDeclarations c acc)
end

mutual
/-- `SemanticAnalyzer::collectTypeDefinitions` (name -> type expression). -/
def collectTypeDefinitions (n : ASTNode) (acc : List (String × ASTNode)) :
    List (String × ASTNode) :=
  match n with
  | .node t v cs =>
    let acc :=
      if t = .TYPE_DECL then
        match cs with
        | c0 :: _ => setA acc v c0
        | [] => acc
      else acc
    collectTypeDefinitionsList cs acc
def collectTypeDefinitionsList (l : List ASTNode) (acc : List (String × ASTNode)) :
    List (String × ASTNode) :=
  match l with
  | [] => acc
  | c :: cs => collectTypeDefinitionsList cs (collectTypeDefinitions c acc)
end

/-- `SemanticAnalyzer::getArraySizeFromType`; the C++ recursion through the
type table diverges on a cyclic alias chain, so the embedding carries fuel
(instantiated to more steps than the table has entries). -/
def getArraySizeFromTypeF (tds : List (String × ASTNode)) :
    Nat → ASTNode → Int
  | 0, _ => -1
  | _ + 1, .node .ARRAY_TYPE _ (c0 :: _) =>
      (match c0 with
       | .node .LITERAL_INT s _ =>
         (match parseInt32 s with
          | some v => v
          | none => -1)
       | _ => -1)
  | fuel + 1, .node .USER_TYPE v _ =>
      (match lookupA tds v with
       | some d => getArraySizeFromTypeF tds fuel d
       | none => -1)
  | _ + 1, _ => -1

def getArraySizeFromType (tds : List (String × ASTNode)) (n : ASTNode) : Int :=
  getArraySizeFromTypeF tds (tds.length + 1) n

mutual
/-- `SemanticAnalyzer::collectOuterScopeVariables`.  The routine / for-loop
case enters a fresh scope (depth + 1); `VAR_DECL` adds its own name to the
scope seen by its own children only (the C++ copy `newCurrentScopeVars` is
local to the call, so siblings do not see it). -/
def collectOuterScopeVariables (declared : List String) (n : ASTNode)
    (depth : Nat) (scopeVars : List String) (acc : List String) : List String :=
  match n with
  | .node t v cs =>
    if t = .ROUTINE_DECL ∨ t = .ROUTINE_FORWARD_DECL ∨ t = .FOR_LOOP then
      let newScope :=
        if t = .ROUTINE_DECL then
          match cs with
          | c0 :: _ =>
            if c0.typ = .PARAMETER_LIST then
              c0.children.foldl
                (fun a p => if p.typ = .PARAMETER then p.val :: a else a) scopeVars
            else scopeVars
          | [] => scopeVars
        else if t = .FOR_LOOP then v :: scopeVars
        else scopeVars
      collectOuterScopeVariablesList declared cs (depth + 1) newScope acc
    else
      let newScope := if t = .VAR_DECL ∧ depth > 0 then v :: scopeVars else scopeVars
      let acc :=
        if t = .IDENTIFIER ∧ depth > 0 ∧ ¬ scopeVars.contains v ∧ declared.contains v
        then insertS v acc else acc
      collectOuterScopeVariablesList declared cs depth newScope acc
def collectOuterScopeVariablesList (declared : List String) (l : List ASTNode)
    (depth : Nat) (scopeVars : List String) (acc : List String) : List String :=
  match l with
  | [] => acc
  | c :: cs =>
      collectOuterScopeVariablesList declared cs depth scopeVars
        (collectOuterScopeVariables declared c depth scopeVars acc)
end

/-! ## Side-effect and dead-assignment analysis (`semantics.h`) -/

/-- `SemanticAnalyzer::involvesGlobalVariable`.  Note: for node kinds other
than identifier / member access / array access the C++ returns `false`
without recursing into children. -/
def involvesGlobalVariable (globals : List String) : ASTNode → Bool
  | .node .IDENTIFIER v _ => globals.contains v
  | .node .MEMBER_ACCESS v cs =>
      (match cs with
       | c0 :: _ => involvesGlobalVariable globals c0
       | [] => globals.contains v)
  | .node .ARRAY_ACCESS _ cs =>
      (match cs with
       | c0 :: _ => involvesGlobalVariable globals c0
       | [] => false)
  | _ => false

mutual
/-- `SemanticAnalyzer::accessesOuterScope`.  For member / array access the
C++ returns the recursion on the base directly (the index expression of an
array access is never inspected). -/
def accessesOuterScope (outer : List String) : ASTNode → Bool
  | .node .IDENTIFIER v _ => outer.contains v
  | .node .MEMBER_ACCESS v cs =>
      (match cs with
       | c0 :: _ => accessesOuterScope outer c0
       | [] => outer.contains v)
  | .node .ARRAY_ACCESS _ cs =>
      (match cs with
       | c0 :: _ => accessesOuterScope outer c0
       | [] => accessesOuterScopeList outer [])
  | .node _ _ cs => accessesOuterScopeList outer cs
def accessesOuterScopeList (outer : List String) : List ASTNode → Bool
  | [] => false
  | c :: cs => accessesOuterScope outer c || accessesOuterScopeList outer cs
end

mutual
/-- `SemanticAnalyzer::extractBaseIdentifier`. -/
def extractBaseIdentifier : ASTNode → String
  | .node .IDENTIFIER v _ => v
  | .node .MEMBER_ACCESS v cs =>
      (match cs with
       | c0 :: _ => extractBaseIdentifier c0
       | [] => v)
  | .node .ARRAY_ACCESS v cs =>
      (match cs with
       | c0 :: _ => extractBaseIdentifier c0
       | [] => v)
  | .node _ v _ => v
end

/-- `SemanticAnalyzer::getAssignmentTarget`.  Note the array-access case:
the C++ recurses with `getAssignmentTarget(target->children[0])`, i.e. it
treats the array base as an assignment and reads *its* first child, so for
a target `a[i]` (base is a childless identifier) the result is `""`. -/
def getAssignmentTarget : ASTNode → String
  | .node _ _ [] => ""
  | .node _ _ (target :: _) =>
    match target with
    | .node .IDENTIFIER v _ => v
    | .node .MEMBER_ACCESS v cs => extractBaseIdentifier (.node .MEMBER_ACCESS v cs)
    | .node .ARRAY_ACCESS _ (c0 :: _) => getAssignmentTarget c0
    | _ => ""

/-- `SemanticAnalyzer::writesToOuterScope`. -/
def writesToOuterScope (outer : List String) (assignment : ASTNode) : Bool :=
  if assignment.typ = .ASSIGNMENT then
    let target := getAssignmentTarget assignment
    if target = "" then false else outer.contains target
  else false

mutual
/-- `SemanticAnalyzer::hasSideEffects`: routine calls always; assignments
writing to outer scope; otherwise any child. -/
def hasSideEffects (outer : List String) (n : ASTNode) : Bool :=
  match n with
  | .node .ROUTINE_CALL _ _ => true
  | .node t v cs =>
      if t = .ASSIGNMENT ∧ writesToOuterScope outer (.node t v cs) then true
      else hasSideEffectsList outer cs
def hasSideEffectsList (outer : List String) : List ASTNode → Bool
  | [] => false
  | c :: cs => hasSideEffects outer c || hasSideEffectsList outer cs
end

/-- `SemanticAnalyzer::hasSideEffectsOrExternalAccess`. -/
def hasSideEffectsOrExternalAccess (globals outer : List String) (n : ASTNode) : Bool :=
  hasSideEffects outer n || involvesGlobalVariable globals n || accessesOuterScope outer n

/-- `SemanticAnalyzer::isDeadAssignment`.  The source contains a disabled
outer-scope preservation branch (`if (false) { ... return false; }`),
reproduced literally below. -/
def isDeadAssignment (globals outer reads : List String) (assignment : ASTNode) : Bool :=
  if assignment.typ ≠ .ASSIGNMENT then false
  else
    let target := getAssignmentTarget assignment
    if target = "" then false
    else if globals.contains target then false
    -- disabled in the source: `if (false) { ... return false; }`
    else if False then false
    else if (match assignment.children with
             | _ :: c1 :: _ => hasSideEffectsOrExternalAccess globals outer c1
             | _ => false) then false
    else ¬ reads.contains target

/-! ## Semantic checks with state (`SemanticAnalyzer::checkSemantics`) -/

structure SemState where
  arraySizes : List (String × Int)
  loopRanges : List (String × (Int × Int))
  written : List String
  errors : List String
  warns : List String
  deriving Repr, DecidableEq

def SemState.empty : SemState := ⟨[], [], [], [], []⟩

mutual
/-- `SemanticAnalyzer::trackVariableWrite`: only the base chain of the
left-hand side is recorded (array indices are never visited). -/
def trackVariableWrite (n : ASTNode) (acc : List String) : List String :=
  match n with
  | .node .IDENTIFIER v _ => insertS v acc
  | .node .MEMBER_ACCESS v cs =>
      (match cs with
       | c0 :: _ => trackVariableWrite c0 (insertS v acc)
       | [] => insertS v acc)
  | .node .ARRAY_ACCESS _ cs =>
      (match cs with
       | c0 :: _ => trackVariableWrite c0 acc
       | [] => acc)
  | _ => acc
end

/-- `SemanticAnalyzer::collectArrayDeclaration`. -/
def collectArrayDeclaration (tds : List (String × ASTNode)) (varDecl : ASTNode)
    (sizes : List (String × Int)) : List (String × Int) :=
  if varDecl.typ ≠ .VAR_DECL then sizes
  else
    match varDecl.children with
    | c0 :: _ =>
      let sz := getArraySizeFromType tds c0
      if sz ≠ -1 then setA sizes varDecl.val sz else sizes
    | [] => sizes

/-- `SemanticAnalyzer::analyzeForLoop`: record `(lo, hi)` when both range
endpoints are integer literals. -/
def analyzeForLoop (forLoop : ASTNode) (ranges : List (String × (Int × Int))) :
    List (String × (Int × Int)) :=
  if forLoop.typ ≠ .FOR_LOOP then ranges
  else
    match forLoop.children with
    | rangeNode :: _ =>
      if rangeNode.typ = .RANGE then
        match rangeNode.children with
        | s :: e :: _ =>
          if s.typ = .LITERAL_INT ∧ e.typ = .LITERAL_INT then
            match parseInt32 s.val, parseInt32 e.val with
            | some lo, some hi => setA ranges forLoop.val (lo, hi)
            | _, _ => ranges
          else ranges
        | _ => ranges
      else ranges
    | [] => ranges

/-- `SemanticAnalyzer::getArrayAtCurrentLevel`. -/
def getArrayAtCurrentLevel : ASTNode → String
  | .node .ARRAY_ACCESS _ (c0 :: _) =>
      (match c0 with
       | .node .IDENTIFIER v _ => v
       | .node .MEMBER_ACCESS v _ => v
       | .node .ARRAY_ACCESS v cs => getArrayAtCurrentLevel (.node .ARRAY_ACCESS v cs)
       | _ => "")
  | _ => ""

/-- `SemanticAnalyzer::checkSingleIndex` (semantics.h 932-972).  An
out-of-range literal index returns `false` *without* touching the error
list; only the loop-variable branch appends an error.  (`std::stoi` on a
non-numeric literal would throw uncaught; literals come from the lexer, so
the `none` parse branch below never fires and is mapped to `true`.) -/
def checkSingleIndex (arrayName : String) (arraySize : Int) (index : ASTNode)
    (dimension : Int) (st : SemState) : Bool × SemState :=
  match index with
  | .node .LITERAL_INT s _ =>
      (match parseInt32 s with
       | some idx => if idx < 1 ∨ idx > arraySize then (false, st) else (true, st)
       | none => (true, st))
  | .node .IDENTIFIER v _ =>
      (match lookupA st.loopRanges v with
       | some (lo, hi) =>
         if lo ≥ 1 ∧ hi ≤ arraySize then (true, st)
         else
           (false, { st with errors := st.errors ++
             ["Loop variable '" ++ v ++ "' range [" ++ toString lo ++ ".." ++ toString hi ++
              "] may go out of bounds in dimension " ++ toString dimension ++
              " for array '" ++ arrayName ++ "' of size " ++ toString arraySize] })
       | none =>
         (true, { st with warns := st.warns ++
           ["Dynamic index in dimension " ++ toString dimension ++ " for array '" ++
            arrayName ++ "' - cannot verify bounds at compile time"] }))
  | _ =>
      (true, { st with warns := st.warns ++
        ["Complex index expression in dimension " ++ toString dimension ++ " for array '" ++
         arrayName ++ "' - cannot verify bounds at compile time"] })

/-- `SemanticAnalyzer::checkArrayAccessRecursive` (the nested-level
recursion in the source is commented out, so only the given level checks). -/
def checkArrayAccessRecursive (declared : List String) (arrayAccess : ASTNode)
    (dimension : Int) (st : SemState) : Bool × SemState :=
  if arrayAccess.typ ≠ .ARRAY_ACCESS then (true, st)
  else
    let arrayName := getArrayAtCurrentLevel arrayAccess
    if arrayName = "" then
      (true, { st with warns := st.warns ++
        ["Complex array access - cannot determine array for bounds checking"] })
    else if declared.contains arrayName then
      match lookupA st.arraySizes arrayName with
      | some arraySize =>
        (match arrayAccess.children with
         | _ :: index :: _ => checkSingleIndex arrayName arraySize index dimension st
         | _ => (true, st))
      | none =>
        let st := { st with warns := st.warns ++
          ["Array '" ++ arrayName ++ "' has dynamic size - cannot verify bounds at compile time"] }
        (match arrayAccess.children with
         | _ :: index :: _ =>
           (match index with
            | .node .LITERAL_INT s _ =>
              (match parseInt32 s with
               | some idx =>
                 if idx < 1 then
                   (false, { st with errors := st.errors ++
                     ["Array index " ++ toString idx ++
                      " is negative or zero - array indices must start from 1"] })
                 else (true, st)
               | none => (true, st))
            | _ => (true, st))
         | _ => (true, st))
    else
      (false, { st with errors := st.errors ++ ["Undeclared array '" ++ arrayName ++ "'"] })

def checkMultiDimArrayBounds (declared : List String) (arrayAccess : ASTNode)
    (st : SemState) : Bool × SemState :=
  if arrayAccess.typ ≠ .ARRAY_ACCESS then (true, st)
  else checkArrayAccessRecursive declared arrayAccess 1 st

mutual
/-- `SemanticAnalyzer::checkSemantics`: node action, then children in
order (a failed child clears the success flag), then for-loops drop their
recorded range. -/
def checkSemantics (tds : List (String × ASTNode)) (declared : List String)
    (n : ASTNode) (st : SemState) : Bool × SemState :=
  match n with
  | .node t v cs =>
    let (succ0, st) :=
      match t with
      | .VAR_DECL =>
          (true, { st with arraySizes := collectArrayDeclaration tds (.node t v cs) st.arraySizes })
      | .FOR_LOOP =>
          (true, { st with loopRanges := analyzeForLoop (.node t v cs) st.loopRanges })
      | .ARRAY_ACCESS => checkMultiDimArrayBounds declared (.node t v cs) st
      | .ASSIGNMENT =>
          (match cs with
           | c0 :: _ => (true, { st with written := trackVariableWrite c0 st.written })
           | [] => (true, st))
      | _ => (true, st)
    let (succ1, st) := checkSemanticsList tds declared cs (succ0, st)
    if t = .FOR_LOOP then
      (succ1, { st with loopRanges := eraseA st.loopRanges v })
    else (succ1, st)
def checkSemanticsList (tds : List (String × ASTNode)) (declared : List String)
    (l : List ASTNode) (acc : Bool × SemState) : Bool × SemState :=
  match l with
  | [] => acc
  | c :: cs =>
    let (ok, st) := checkSemantics tds declared c acc.2
    checkSemanticsList tds declared cs (acc.1 && ok, st)
end

/-- The return expression of `SemanticAnalyzer::analyze` (semantics.h 170):
`declOk && semanticSuccess && errors.empty()`. -/
def analyzeReturns (declOk : Bool) (semanticSuccess : Bool) (errors : List String) : Bool :=
  declOk && semanticSuccess && errors.isEmpty

/-! ## Usage tracker (`collectCompleteUsage`, `trackReadsInExpression`) -/

structure Usage where
  reads : List String
  called : List String
  deriving Repr, DecidableEq

def Usage.empty : Usage := ⟨[], []⟩

/-- `SemanticAnalyzer::isExpressionContext`: note that `IDENTIFIER`,
`ARRAY_ACCESS` and `MEMBER_ACCESS` are *not* expression contexts. -/
def isExpressionContext (t : ASTNodeType) : Bool :=
  t = .BINARY_OP || t = .UNARY_OP || t = .SIZE_EXPRESSION ||
  t = .LITERAL_INT || t = .LITERAL_REAL || t = .LITERAL_BOOL || t = .LITERAL_STRING

mutual
/-- `SemanticAnalyzer::trackReadsInExpression`: identifiers and member
names anywhere in the expression are reads; the trailing loop visits every
child regardless of the node kind. -/
def trackReadsInExpression (n : ASTNode) (acc : List String) : List String :=
  match n with
  | .node t v cs =>
    let acc :=
      if t = .IDENTIFIER then insertS v acc
      else if t = .MEMBER_ACCESS then
        (match cs with
         | c0 :: _ => trackReadsInExpression c0 (insertS v acc)
         | [] => insertS v acc)
      else if t = .ARRAY_ACCESS then
        (match cs with
         | c0 :: _ => trackReadsInExpression c0 acc
         | [] => acc)
      else acc
    trackReadsList cs acc
def trackReadsList (l : List ASTNode) (acc : List String) : List String :=
  match l with
  | [] => acc
  | c :: cs => trackReadsList cs (trackReadsInExpression c acc)
end

mutual
/-- `SemanticAnalyzer::collectCompleteUsage` (semantics.h 1335-1417).
Return statements and if statements return early; every other kind falls
through to the child loop. -/
def collectCompleteUsage (n : ASTNode) (u : Usage) : Usage :=
  match n with
  | .node t v cs =>
    match t with
    | .RETURN_STMT =>
        (match cs with
         | c0 :: _ =>
           let u := { u with reads := trackReadsInExpression c0 u.reads }
           collectCompleteUsage c0 u
         | [] => u)
    | .IF_STMT =>
        let u :=
          match cs with
          | c0 :: _ => { u with reads := trackReadsInExpression c0 u.reads }
          | [] => u
        let u :=
          match cs with
          | _ :: c1 :: _ => collectCompleteUsage c1 u
          | _ => u
        (match cs with
         | _ :: _ :: c2 :: _ => collectCompleteUsage c2 u
         | _ => u)
    | _ =>
      let u :=
        match t with
        | .PRINT_STMT =>
            (match cs with
             | c0 :: _ => { u with reads := trackReadsInExpression c0 u.reads }
             | [] => u)
        | .ASSIGNMENT =>
            (match cs with
             | _ :: c1 :: _ => { u with reads := trackReadsInExpression c1 u.reads }
             | _ => u)
        | .FOR_LOOP =>
            (match cs with
             | c0 :: _ => { u with reads := trackReadsInExpression c0 u.reads }
             | [] => u)
        | .ROUTINE_CALL =>
            let u := if v ≠ "" then { u with called := insertS v u.called } else u
            (match cs with
             | c0 :: _ => { u with reads := trackReadsInExpression c0 u.reads }
             | [] => u)
        | _ =>
            if isExpressionContext t then
              { u with reads := trackReadsInExpression (.node t v cs) u.reads }
            else u
      collectCompleteUsageList cs u
def collectCompleteUsageList (l : List ASTNode) (u : Usage) : Usage :=
  match l with
  | [] => u
  | c :: cs => collectCompleteUsageList cs (collectCompleteUsage c u)
end

/-! ## Dead-code elimination (`semantics.h` 1078-1543) -/

mutual
def astSize : ASTNode → Nat
  | .node _ _ cs => 1 + astSizeList cs
def astSizeList : List ASTNode → Nat
  | [] => 0
  | c :: cs => astSize c + astSizeList cs
end

/-- `SemanticAnalyzer::isRecordType`; the alias recursion through the type
table can cycle in C++ (divergence), so the embedding carries fuel, spent
one unit per recursive step; the wrapper below supplies more fuel than any
acyclic chain can consume. -/
def isRecordTypeF (tds : List (String × ASTNode)) : Nat → ASTNode → Bool
  | 0, _ => false
  | fuel + 1, n =>
    if n.typ = .RECORD_TYPE then true
    else if n.typ = .USER_TYPE then
      match lookupA tds n.val with
      | some d => isRecordTypeF tds fuel d
      | none => false
    else if n.typ = .ARRAY_TYPE then
      match n.children with
      | _ :: c1 :: _ => isRecordTypeF tds fuel c1
      | _ => false
    else false

def tdsTotalSize (tds : List (String × ASTNode)) : Nat :=
  tds.foldl (fun a p => a + astSize p.2) 0

def isRecordType (tds : List (String × ASTNode)) (n : ASTNode) : Bool :=
  isRecordTypeF tds (astSize n + tdsTotalSize tds + 1) n

/-- `SemanticAnalyzer::isRecordFieldDeclaration`. -/
def isRecordFieldDeclaration (tds : List (String × ASTNode)) (varDecl : ASTNode) : Bool :=
  match varDecl.children with
  | [] => false
  | c0 :: _ =>
    if c0.typ = .RECORD_TYPE then true
    else if c0.typ = .ARRAY_TYPE then
      match c0.children with
      | _ :: c1 :: _ => isRecordType tds c1
      | _ => false
    else if c0.typ = .USER_TYPE then
      match lookupA tds c0.val with
      | some d => isRecordType tds d
      | none => false
    else false

mutual
/-- `SemanticAnalyzer::removeAssignmentsToVariable`: in `BODY` / `PROGRAM`
children, assignments whose target is the variable are dropped; all kept
children are processed recursively. -/
def removeAssignmentsToVariable (varName : String) (n : ASTNode) : ASTNode :=
  match n with
  | .node t v cs =>
    if t = .BODY ∨ t = .PROGRAM then
      .node t v (remAssignBody varName cs)
    else
      .node t v (remAssignMap varName cs)
def remAssignBody (varName : String) : List ASTNode → List ASTNode
  | [] => []
  | c :: cs =>
    if c.typ = .ASSIGNMENT ∧ getAssignmentTarget c = varName then
      remAssignBody varName cs
    else
      removeAssignmentsToVariable varName c :: remAssignBody varName cs
def remAssignMap (varName : String) : List ASTNode → List ASTNode
  | [] => []
  | c :: cs => removeAssignmentsToVariable varName c :: remAssignMap varName cs
end

/-- Read-only environment of an optimization pass: the usage sets the
analyzer collected before `optimizeAST` runs. -/
structure DceEnv where
  reads : List String
  writes : List String
  globals : List String
  called : List String
  outer : List String
  tds : List (String × ASTNode)
  deriving Repr

mutual
/-- `SemanticAnalyzer::optimizeDeadCode`: in a `BODY`, drop assignments to
non-global targets that `isDeadAssignment` classifies dead, then recurse
into the remaining children (C++ reassigns `node->children` before its
trailing recursion loop, so dropped children are never visited). -/
def optimizeDeadCode (env : DceEnv) (n : ASTNode) : ASTNode :=
  match n with
  | .node t v cs =>
    if t = .BODY then .node t v (optimizeDeadCodeBody env cs)
    else .node t v (optimizeDeadCodeList env cs)
def optimizeDeadCodeBody (env : DceEnv) : List ASTNode → List ASTNode
  | [] => []
  | c :: cs =>
    if c.typ = .ASSIGNMENT ∧ ¬ env.globals.contains (getAssignmentTarget c)
        ∧ isDeadAssignment env.globals env.outer env.reads c then
      optimizeDeadCodeBody env cs
    else
      optimizeDeadCode env c :: optimizeDeadCodeBody env cs
def optimizeDeadCodeList (env : DceEnv) : List ASTNode → List ASTNode
  | [] => []
  | c :: cs => optimizeDeadCode env c :: optimizeDeadCodeList env cs
end

/-- First pass of `SemanticAnalyzer::optimizeUnusedDeclarations`: mark
write-only non-global, non-record-field locals for removal. -/
def collectWriteOnlyVars (env : DceEnv) (children : List ASTNode) : List String :=
  children.foldl
    (fun acc c =>
      if c.typ = .VAR_DECL ∧ ¬ isRecordFieldDeclaration env.tds c
          ∧ ¬ env.reads.contains c.val ∧ env.writes.contains c.val
          ∧ ¬ env.globals.contains c.val then
        insertS c.val acc
      else acc)
    []

/-- One child of the second pass of `optimizeUnusedDeclarations`: the nodes
it contributes to the rebuilt child list, together with the variables whose
assignments `removeAssignmentsToVariable` is asked to scrub. -/
def processUnusedChild (env : DceEnv) (writeOnly : List String) (c : ASTNode) :
    List ASTNode × List String :=
  if c.typ = .VAR_DECL then
    let varName := c.val
    let isRead := env.reads.contains varName
    let isWritten := env.writes.contains varName
    let isGlobal := env.globals.contains varName
    if isRecordFieldDeclaration env.tds c then
      if isRead ∨ isWritten then ([c], []) else ([], [])
    else if isRead then ([c], [])
    else if isGlobal then
      (if isRead ∨ isWritten then ([c], []) else ([], []))
    else if writeOnly.contains varName then ([], [varName])
    else ([], [])
  else if c.typ = .ASSIGNMENT then
    let target := getAssignmentTarget c
    if target ≠ "" ∧ writeOnly.contains target then
      let rhsSE :=
        match c.children with
        | _ :: c1 :: _ => hasSideEffectsOrExternalAccess env.globals env.outer c1
        | _ => false
      if rhsSE then
        (match c.children with
         | _ :: c1 :: _ => ([c1], [])
         | _ => ([], []))
      else ([], [target])
    else
      let hasExt :=
        (match c.children with
         | c0 :: _ => involvesGlobalVariable env.globals c0
         | [] => false) ||
        (match c.children with
         | _ :: c1 :: _ => hasSideEffectsOrExternalAccess env.globals env.outer c1
         | _ => false)
      if hasExt then ([c], [])
      else if ¬ isDeadAssignment env.globals env.outer env.reads c then ([c], [])
      else ([], [target])
  else if c.typ = .ROUTINE_DECL ∨ c.typ = .ROUTINE_FORWARD_DECL then
    if env.called.contains c.val ∨ c.val = "main" ∨ c.val = "testRunner" then
      ([c], [])
    else ([], [])
  else
    -- both remaining C++ branches (side-effecting expression / default) keep the child
    ([c], [])

def processUnusedChildren (env : DceEnv) (writeOnly : List String) :
    List ASTNode → List ASTNode × List String
  | [] => ([], [])
  | c :: cs =>
    ((processUnusedChild env writeOnly c).1 ++ (processUnusedChildren env writeOnly cs).1,
     (processUnusedChild env writeOnly c).2 ++ (processUnusedChildren env writeOnly cs).2)

/-- `SemanticAnalyzer::optimizeUnusedDeclarations`.  The C++ calls
`removeAssignmentsToVariable(var, node)` in the middle of iterating
`node->children` and reassigns the vector inside that call (iterator
invalidation); the embedding runs the per-child decisions over the original
child list and applies the requested scrubs to the rebuilt node afterwards,
which reproduces the per-child decisions and the nested removals. -/
def optimizeUnusedDeclarations (env : DceEnv) (n : ASTNode) : ASTNode :=
  match n with
  | .node t v cs =>
    let writeOnly := collectWriteOnlyVars env cs
    ((processUnusedChildren env writeOnly cs).2).foldl
      (fun nd w => removeAssignmentsToVariable w nd)
      (.node t v (processUnusedChildren env writeOnly cs).1)

/-! ## WebAssembly emitter (`wasm_compiler.cpp` / `wasm_compiler.h`)

Emitted bytes are `List Nat` (each element a byte value).  The per-function
emitters in C++ append to a `std::vector<uint8_t>& body`; the embeddings
return the appended byte list. -/

/-- `WasmCompiler::writeUnsignedLeb128` on a `uint32_t` (at most five
iterations; the fuel only serves Lean totality). -/
def ulebF : Nat → Nat → List Nat
  | 0, v => [v % 128]
  | fuel + 1, v => if v < 128 then [v] else (v % 128 + 128) :: ulebF fuel (v / 128)

def writeUnsignedLeb128 (v : Nat) : List Nat := ulebF 10 (v % 2 ^ 32)

/-- `WasmCompiler::writeSignedLeb128` on an `int32_t`: arithmetic shift by
seven is floor division by 128; the continuation test follows the source. -/
def slebF : Nat → Int → List Nat
  | 0, v => [(v % 128).toNat]
  | fuel + 1, v =>
    let b := (v % 128).toNat
    let v' := (v - (v % 128)) / 128
    if (v' = 0 ∧ b < 64) ∨ (v' = -1 ∧ 64 ≤ b) then [b]
    else (b + 128) :: slebF fuel v'

def writeSignedLeb128 (v : Int) : List Nat := slebF 10 (wrap32 v)

/-- Value of a C++ `int` cast to `uint32_t` (LEB argument position). -/
def intToU32 (v : Int) : Nat := (v % (2 ^ 32 : Int)).toNat

def mapPrimitiveToWasm (s : String) : Nat :=
  if s = "integer" ∨ s = "boolean" then 0x7f
  else if s = "real" then 0x7c
  else 0x7f

structure ArrayInfo where
  elemType : Nat
  elemTypeName : String
  size : Int
  baseOffset : Int
  deriving Repr, DecidableEq

structure RecordInfo where
  name : String
  fields : List (String × Nat × Int)
  totalSize : Int
  deriving Repr, DecidableEq

structure RecordVarInfo where
  recordType : String
  baseOffset : Int
  size : Int
  deriving Repr, DecidableEq

structure GlobalVarInfo where
  name : String
  gtype : Nat
  memoryOffset : Int
  size : Int
  initializer : Option ASTNode
  deriving Repr, DecidableEq

structure FuncInfo where
  name : String
  paramTypes : List Nat
  resultTypes : List Nat
  node : ASTNode
  deriving Repr, DecidableEq

structure WState where
  funcs : List FuncInfo
  funcIndexByName : List (String × Nat)
  localVarIndices : List (String × Int)
  nextLocalIndex : Int
  arrayInfos : List (String × ArrayInfo)
  recordTypes : List (String × RecordInfo)
  recordVariables : List (String × RecordVarInfo)
  globalVars : List (String × GlobalVarInfo)
  globalArrays : List (String × ArrayInfo)
  globalMemoryOffset : Int
  deriving Repr

/-- `WasmCompiler::analyzeArrayType`: scan the children, last match wins
per component (`std::stoi` failure yields size 0 as in the source). -/
def analyzeArrayType (n : ASTNode) : Nat × String × Int :=
  if n.typ ≠ .ARRAY_TYPE then (0x7f, "integer", 0)
  else
    n.children.foldl
      (fun (acc : Nat × String × Int) c =>
        let (et, tn, sz) := acc
        if c.typ = .LITERAL_INT then
          (et, tn, (match parseInt32 c.val with | some v => v | none => 0))
        else if c.typ = .PRIMITIVE_TYPE then
          (mapPrimitiveToWasm c.val, c.val, sz)
        else if c.typ = .USER_TYPE then
          (0x7f, c.val, sz)
        else acc)
      (0x7f, "integer", 0)

/-- `WasmCompiler::analyzeFieldType`. -/
def analyzeFieldType (rts : List (String × RecordInfo)) (fieldDecl : ASTNode) : Nat × Int :=
  match fieldDecl.children with
  | [] => (0x7f, 4)
  | tn :: _ =>
    if tn.typ = .PRIMITIVE_TYPE then
      if tn.val = "integer" ∨ tn.val = "boolean" then (0x7f, 4)
      else if tn.val = "real" then (0x7c, 8)
      else (0x7f, 4)
    else if tn.typ = .ARRAY_TYPE then
      let (et, _, sz) := analyzeArrayType tn
      let elemSize : Int := if et = 0x7c then 8 else 4
      (et, sz * elemSize)
    else if tn.typ = .USER_TYPE then
      match lookupA rts tn.val with
      | some r => (0x7f, r.totalSize)
      | none => (0x7f, 4)
    else (0x7f, 4)

/-- `WasmCompiler::collectRecordTypes`: program-level `TYPE_DECL` nodes
whose body is a record; fields are laid out in order, offset running sum,
no padding.  (The source indexes `children[0]->children[0]` for the record
body; an absent body is treated like the null check treats it.) -/
def collectRecordTypes (program : ASTNode) : List (String × RecordInfo) :=
  program.children.foldl
    (fun rts n =>
      if n.typ ≠ .TYPE_DECL then rts
      else
        match n.children with
        | c0 :: _ =>
          if c0.typ = .RECORD_TYPE then
            let fieldsAndSize :=
              match c0.children with
              | recordBody :: _ =>
                recordBody.children.foldl
                  (fun (acc : List (String × Nat × Int) × Int) (field : ASTNode) =>
                    if field.typ ≠ .VAR_DECL then acc
                    else
                      let (ft, fsz) := analyzeFieldType rts field
                      (acc.1 ++ [(field.val, ft, acc.2)], acc.2 + fsz))
                  ([], 0)
              | [] => ([], 0)
            setA rts n.val ⟨n.val, fieldsAndSize.1, fieldsAndSize.2⟩
          else rts
        | [] => rts)
    []

/-- `WasmCompiler::analyzeFunctionSignature`. -/
def analyzeFunctionSignature (node : ASTNode) : List Nat × List Nat :=
  let params :=
    node.children.foldl
      (fun acc ch =>
        if ch.typ = .PARAMETER_LIST then some ch else acc) none
  let retType :=
    node.children.foldl
      (fun acc ch =>
        if ch.typ = .PRIMITIVE_TYPE ∨ ch.typ = .USER_TYPE then some ch else acc) none
  let paramTypes :=
    match params with
    | some ps =>
      ps.children.foldl
        (fun acc p =>
          if p.typ ≠ .PARAMETER then acc
          else
            let wt := p.children.foldl
              (fun w pc =>
                if pc.typ = .PRIMITIVE_TYPE then mapPrimitiveToWasm pc.val
                else if pc.typ = .USER_TYPE then 0x7f
                else w)
              0x7f
            acc ++ [wt])
        []
    | none => []
  let resultTypes :=
    match retType with
    | some rt => [mapPrimitiveToWasm rt.val]
    | none => [0x7f]
  (paramTypes, resultTypes)

/-- `WasmCompiler::collectFunctions` (record pass, the global-variable
layout pass, the routine pass and the `main` check).  `none` models the
`false` return. -/
def collectFunctions (program : ASTNode) : Option WState :=
  let rts := collectRecordTypes program
  if program.typ ≠ .PROGRAM then none
  else
    let init : List (String × GlobalVarInfo) × List (String × ArrayInfo) × Int := ([], [], 0)
    let (gvs, gas, off) :=
      program.children.foldl
        (fun (acc : List (String × GlobalVarInfo) × List (String × ArrayInfo) × Int) n =>
          let (gvs, gas, off) := acc
          let varDecl : Option ASTNode :=
            if n.typ = .VAR_DECL then some n
            else match n.children with
                 | c0 :: _ => if c0.typ = .VAR_DECL then some c0 else none
                 | [] => none
          match varDecl with
          | none => acc
          | some vd =>
            let (gty, gsz, gaNew) :
                Nat × Int × Option ArrayInfo :=
              match vd.children with
              | tn :: _ =>
                if tn.typ = .PRIMITIVE_TYPE then
                  let t := mapPrimitiveToWasm tn.val
                  (t, if t = 0x7c then (8 : Int) else 4, none)
                else if tn.typ = .ARRAY_TYPE then
                  let (et, etn, sz) := analyzeArrayType tn
                  let elemSize : Int :=
                    match lookupA rts etn with
                    | some r => r.totalSize
                    | none => if et = 0x7c then 8 else 4
                  (et, sz * elemSize, some ⟨et, etn, sz, off⟩)
                else if tn.typ = .USER_TYPE then
                  match lookupA rts tn.val with
                  | some r => (0x7f, r.totalSize, none)
                  | none => (0x7f, 4, none)
                else (0x7f, 4, none)
              | [] => (0x7f, 4, none)
            let initzr : Option ASTNode :=
              match vd.children with
              | _ :: c1 :: _ => some c1
              | _ => none
            let gvs := setA gvs vd.val ⟨vd.val, gty, off, gsz, initzr⟩
            let gas := match gaNew with
                       | some ai => setA gas vd.val ai
                       | none => gas
            (gvs, gas, off + gsz))
        init
    let funcs :=
      program.children.foldl
        (fun acc n =>
          if n.typ = .ROUTINE_DECL then
            let (pts, rets) := analyzeFunctionSignature n
            acc ++ [(⟨n.val, pts, rets, n⟩ : FuncInfo)]
          else acc)
        []
    if funcs.isEmpty then none
    else
      let fidx := (funcs.enum.map (fun p => (p.2.name, p.1))).foldl
        (fun m p => setA m p.1 p.2) []
      if (lookupA fidx "main").isNone then none
      else
        some ⟨funcs, fidx, [], 0, [], rts, [], gvs, gas, off⟩

/-- The page-count computation of `WasmCompiler::buildMemorySection`
(`(total + 65535) / 65536`, floor one page, cap 1024; C++ `int` division
truncates toward zero). -/
def totalMemoryPages (st : WState) : Int :=
  let totalMemoryNeeded := st.globalMemoryOffset
  let pages := Int.tdiv (totalMemoryNeeded + 65535) 65536
  let pages := if pages = 0 then 1 else pages
  if pages > 1024 then 1024 else pages

/-- `WasmCompiler::buildMemorySection`: section id 5, one memory, limits
kind 0, minimum page count. -/
def buildMemorySection (st : WState) : List Nat :=
  let payload := writeUnsignedLeb128 1 ++ [0x00] ++ writeUnsignedLeb128 (intToU32 (totalMemoryPages st))
  0x05 :: writeUnsignedLeb128 payload.length ++ payload

/-- `WasmCompiler::resetLocals`. -/
def resetLocals (st : WState) : WState :=
  { st with localVarIndices := [], arrayInfos := [], recordVariables := [], nextLocalIndex := 0 }

/-- `WasmCompiler::addParametersToLocals` (first `PARAMETER_LIST` child). -/
def addParametersToLocals (st : WState) (F : FuncInfo) : WState :=
  let params := F.node.children.find? (fun ch => ch.typ = .PARAMETER_LIST)
  match params with
  | none => st
  | some ps =>
    let (lvi, idx) :=
      ps.children.foldl
        (fun (acc : List (String × Int) × Int) p =>
          if p.typ ≠ .PARAMETER then acc
          else (setA acc.1 p.val acc.2, acc.2 + 1))
        (st.localVarIndices, 0)
    { st with localVarIndices := lvi, nextLocalIndex := idx }

/-- `WasmCompiler::analyzeLocalVariables`: walks the body's `VAR_DECL`
children, assigns local indices, lays array / record variables out in
linear memory (advancing `globalMemoryOffset`), then appends the two i32
scratch locals and encodes the locals header.  On the missing-body early
return the source does *not* advance `nextLocalIndex`. -/
def analyzeLocalVariables (st : WState) (F : FuncInfo) : List Nat × WState :=
  let bodyNode := F.node.children.find? (fun ch => ch.typ = .BODY)
  match bodyNode with
  | none =>
    let locals : List (Nat × Nat) := [(2, 0x7f)]
    let buf := writeUnsignedLeb128 locals.length ++
      (locals.map (fun p => writeUnsignedLeb128 p.1 ++ [p.2])).flatten
    (buf, st)
  | some body =>
    let step := fun (acc : WState × List (Nat × Nat)) (s : ASTNode) =>
      let (st, locals) := acc
      if s.typ ≠ .VAR_DECL then acc
      else if (lookupA st.localVarIndices s.val).isSome then acc
      else
        match s.children with
        | tn :: _ =>
          if tn.typ = .USER_TYPE ∧ (lookupA st.recordTypes tn.val).isSome then
            match lookupA st.recordTypes tn.val with
            | some r =>
              let recVar : RecordVarInfo := ⟨tn.val, st.globalMemoryOffset, r.totalSize⟩
              ({ st with
                  recordVariables := setA st.recordVariables s.val recVar,
                  globalMemoryOffset := st.globalMemoryOffset + r.totalSize,
                  localVarIndices := setA st.localVarIndices s.val st.nextLocalIndex,
                  nextLocalIndex := st.nextLocalIndex + 1 },
               locals ++ [(1, 0x7f)])
            | none => acc
          else if tn.typ = .ARRAY_TYPE then
            let (et, etn, sz) := analyzeArrayType tn
            let elemSize : Int :=
              if et = 0x7c then 8
              else match lookupA st.recordTypes etn with
                   | some r => r.totalSize
                   | none => 4
            ({ st with
                localVarIndices := setA st.localVarIndices s.val st.nextLocalIndex,
                nextLocalIndex := st.nextLocalIndex + 1,
                arrayInfos := setA st.arrayInfos s.val ⟨et, etn, sz, st.globalMemoryOffset⟩,
                globalMemoryOffset := st.globalMemoryOffset + sz * elemSize },
             locals ++ [(1, 0x7f)])
          else
            let wt := if tn.typ = .PRIMITIVE_TYPE then mapPrimitiveToWasm tn.val else 0x7f
            ({ st with
                localVarIndices := setA st.localVarIndices s.val st.nextLocalIndex,
                nextLocalIndex := st.nextLocalIndex + 1 },
             locals ++ [(1, wt)])
        | [] =>
            ({ st with
                localVarIndices := setA st.localVarIndices s.val st.nextLocalIndex,
                nextLocalIndex := st.nextLocalIndex + 1 },
             locals ++ [(1, 0x7f)])
    let (st, locals) := body.children.foldl step (st, [])
    let locals := locals ++ [(2, 0x7f)]
    let st := { st with nextLocalIndex := st.nextLocalIndex + 2 }
    let buf := writeUnsignedLeb128 locals.length ++
      (locals.map (fun p => writeUnsignedLeb128 p.1 ++ [p.2])).flatten
    (buf, st)

/-! ## Emit helpers (`wasm_compiler.cpp` 1228-1398) -/

/-- `WasmCompiler::emitI32Const`: opcode 0x41 then signed LEB128 of the
value taken through the `int -> uint32_t -> int32_t` casts. -/
def emitI32Const (v : Int) : List Nat := 0x41 :: writeSignedLeb128 v

/-- Round a nonnegative rational to the nearest natural, ties to even. -/
def roundNearestEven (x : Rat) : Nat :=
  let fl := x.floor.toNat
  let fr := x - x.floor
  if fr > 1 / 2 then fl + 1
  else if fr < 1 / 2 then fl
  else if fl % 2 = 0 then fl else fl + 1

def ratPow2 (e : Int) : Rat :=
  if e ≥ 0 then ((2 : Rat) ^ e.toNat) else 1 / ((2 : Rat) ^ (-e).toNat)

/-- Largest `e` with `2 ^ e ≤ m`, for `m > 0`. -/
def floorLog2Rat (m : Rat) : Int :=
  let g : Int := (Nat.log2 m.num.natAbs : Int) - (Nat.log2 m.den : Int)
  let g := if ratPow2 (g + 1) ≤ m then g + 1 else g
  let g := if ratPow2 (g + 1) ≤ m then g + 1 else g
  let g := if m < ratPow2 g then g - 1 else g
  if m < ratPow2 g then g - 1 else g

/-- IEEE-754 binary64 little-endian byte pattern of a rational (the model
of the `memcpy` in `WasmCompiler::emitF64Const`; round to nearest, ties to
even; no claim below depends on these bytes). -/
def f64bits (q : Rat) : List Nat :=
  let bits : Nat :=
    if q = 0 then 0
    else
      let s : Nat := if q < 0 then 1 else 0
      let m := |q|
      let e := floorLog2Rat m
      if e < -1022 then
        let mant := roundNearestEven (m * ratPow2 1074)
        if mant ≥ 2 ^ 52 then s * 2 ^ 63 + 2 ^ 52 + (mant - 2 ^ 52)
        else s * 2 ^ 63 + mant
      else
        let mant := roundNearestEven (m * ratPow2 (52 - e))
        let me : Nat × Int := if mant ≥ 2 ^ 53 then (2 ^ 52, e + 1) else (mant, e)
        if me.2 > 1023 then s * 2 ^ 63 + 2047 * 2 ^ 52
        else s * 2 ^ 63 + (me.2 + 1023).toNat * 2 ^ 52 + (me.1 - 2 ^ 52)
  (List.range 8).map (fun i => bits / 2 ^ (8 * i) % 256)

def emitF64Const (q : Rat) : List Nat := 0x44 :: f64bits q

/-- `WasmCompiler::emitLocalGet`: global scalars load from linear memory
(note the `0x2c` byte the source labels `f64.load`), global arrays push
their base offset, locals use `local.get`, unknown names push zero. -/
def emitLocalGet (st : WState) (name : String) : List Nat :=
  match lookupA st.globalVars name with
  | some gv =>
    emitI32Const gv.memoryOffset ++
      (if gv.gtype = 0x7c then [0x2c, 0x03] else [0x28, 0x02]) ++ [0x00]
  | none =>
    match lookupA st.globalArrays name with
    | some ai => emitI32Const ai.baseOffset
    | none =>
      match lookupA st.localVarIndices name with
      | some idx => 0x20 :: writeUnsignedLeb128 (intToU32 idx)
      | none => emitI32Const 0

/-- `WasmCompiler::emitLocalSet` (wasm_compiler.cpp 1279-1398).  For a
global the source stashes the value and the address in the two scratch
locals, then pushes them back with `local.get` twice each — the first
`get temp2 / get temp1` pair (lines 1311-1317) was left in place when the
second pair (lines 1371-1376) was added — before the store opcode. -/
def emitLocalSet (st : WState) (name : String) : List Nat :=
  match lookupA st.globalVars name with
  | some gv =>
    let temp1 := intToU32 (st.nextLocalIndex - 2)
    let temp2 := intToU32 (st.nextLocalIndex - 1)
    0x21 :: writeUnsignedLeb128 temp1 ++
    emitI32Const gv.memoryOffset ++
    0x21 :: writeUnsignedLeb128 temp2 ++
    0x20 :: writeUnsignedLeb128 temp2 ++
    0x20 :: writeUnsignedLeb128 temp1 ++
    0x20 :: writeUnsignedLeb128 temp2 ++
    0x20 :: writeUnsignedLeb128 temp1 ++
    (if gv.gtype = 0x7c then [0x39, 0x03] else [0x36, 0x02]) ++ [0x00]
  | none =>
    match lookupA st.localVarIndices name with
    | some idx => 0x21 :: writeUnsignedLeb128 (intToU32 idx)
    | none => []

/-! ## Expression typing (`WasmCompiler::getExpressionType`) -/

inductive VType where
  | INTEGER | REAL | BOOLEAN | UNKNOWN
  deriving DecidableEq, Repr

/-- Parameter scan in the identifier case: a parameter whose value matches
yields a type only through a primitive-typed child naming one of the three
primitives; otherwise the C++ keeps scanning. -/
def searchParamChildren : List ASTNode → Option VType
  | [] => none
  | pc :: rest =>
    if pc.typ = .PRIMITIVE_TYPE ∧ pc.val = "integer" then some .INTEGER
    else if pc.typ = .PRIMITIVE_TYPE ∧ pc.val = "real" then some .REAL
    else if pc.typ = .PRIMITIVE_TYPE ∧ pc.val = "boolean" then some .BOOLEAN
    else searchParamChildren rest

def searchParams : List ASTNode → String → Option VType
  | [], _ => none
  | p :: rest, name =>
    if p.val = name then
      match searchParamChildren p.children with
      | some t => some t
      | none => searchParams rest name
    else searchParams rest name

def searchBodyVars : List ASTNode → String → Option VType
  | [], _ => none
  | s :: rest, name =>
    if s.typ = .VAR_DECL ∧ s.val = name then
      match s.children with
      | tn :: _ =>
        if tn.typ = .PRIMITIVE_TYPE ∧ tn.val = "integer" then some .INTEGER
        else if tn.typ = .PRIMITIVE_TYPE ∧ tn.val = "real" then some .REAL
        else if tn.typ = .PRIMITIVE_TYPE ∧ tn.val = "boolean" then some .BOOLEAN
        else searchBodyVars rest name
      | [] => searchBodyVars rest name
    else searchBodyVars rest name

/-- Record field lookup: first field with the name (the C++ `break`s). -/
def findField (fields : List (String × Nat × Int)) (name : String) : Option (Nat × Int) :=
  lookupA fields name

def promoteType (l r : VType) : VType :=
  if l = .REAL ∨ r = .REAL then .REAL
  else if l = .INTEGER ∨ r = .INTEGER then .INTEGER
  else .BOOLEAN

def getExpressionType (st : WState) (F : FuncInfo) : ASTNode → VType
  | .node .LITERAL_INT _ _ => .INTEGER
  | .node .LITERAL_REAL _ _ => .REAL
  | .node .LITERAL_BOOL _ _ => .BOOLEAN
  | .node .IDENTIFIER v _ =>
    let fromParams :=
      match F.node.children.find? (fun ch => ch.typ = .PARAMETER_LIST) with
      | some ps => searchParams ps.children v
      | none => none
    (match fromParams with
     | some t => t
     | none =>
       match (match F.node.children.find? (fun ch => ch.typ = .BODY) with
              | some b => searchBodyVars b.children v
              | none => none) with
       | some t => t
       | none =>
         if (lookupA st.globalArrays v).isSome then .INTEGER
         else
           match lookupA st.globalVars v with
           | some gv => if gv.gtype = 0x7c then .REAL else .INTEGER
           | none =>
             -- arrays and records are base addresses; the default is also i32
             if (lookupA st.arrayInfos v).isSome ∨ (lookupA st.recordVariables v).isSome
             then .INTEGER else .INTEGER)
  | .node .BINARY_OP op cs =>
    (match cs with
     | L :: R :: _ =>
       if isCmpOp op then .BOOLEAN
       else promoteType (getExpressionType st F L) (getExpressionType st F R)
     | _ => .INTEGER)
  | .node .UNARY_OP _ cs =>
    (match cs with
     | c0 :: _ => getExpressionType st F c0
     | [] => .INTEGER)
  | .node .ROUTINE_CALL v _ =>
    (match lookupA st.funcIndexByName v with
     | some idx =>
       match st.funcs.get? idx with
       | some cf =>
         (match cf.resultTypes with
          | rt :: _ => if rt = 0x7c then .REAL else .INTEGER
          | [] => .INTEGER)
       | none => .INTEGER
     | none => .INTEGER)
  | .node .ARRAY_ACCESS _ cs =>
    (match cs with
     | arrayRef :: _ =>
       (match arrayRef with
        | .node .IDENTIFIER av _ =>
          (match lookupA st.arrayInfos av with
           | some ai => if ai.elemType = 0x7c then .REAL else .INTEGER
           | none => .INTEGER)
        | .node .MEMBER_ACCESS fieldName mcs =>
          (match mcs with
           | base :: _ =>
             (match base with
              | .node .IDENTIFIER bv _ =>
                (match lookupA st.recordVariables bv with
                 | some rv =>
                   (match lookupA st.recordTypes rv.recordType with
                    | some rt =>
                      (match findField rt.fields fieldName with
                       | some (ft, _) => if ft = 0x7c then .REAL else .INTEGER
                       | none => .INTEGER)
                    | none => .INTEGER)
                 | none => .INTEGER)
              | .node .ARRAY_ACCESS _ bcs =>
                (match bcs with
                 | (.node .IDENTIFIER ov _) :: _ =>
                   (match lookupA st.arrayInfos ov with
                    | some ai =>
                      (match lookupA st.recordTypes ai.elemTypeName with
                       | some rt =>
                         (match findField rt.fields fieldName with
                          | some (ft, _) => if ft = 0x7c then .REAL else .INTEGER
                          | none => .INTEGER)
                       | none => .INTEGER)
                    | none => .INTEGER)
                 | _ => .INTEGER)
              | _ => .INTEGER)
           | [] => .INTEGER)
        | _ => .INTEGER)
     | [] => .INTEGER)
  | .node .MEMBER_ACCESS fieldName cs =>
    (match cs with
     | base :: _ =>
       (match base with
        | .node .IDENTIFIER bv _ =>
          (match lookupA st.recordVariables bv with
           | some rv =>
             (match lookupA st.recordTypes rv.recordType with
              | some rt =>
                (match findField rt.fields fieldName with
                 | some (ft, _) => if ft = 0x7c then .REAL else .INTEGER
                 | none => .INTEGER)
              | none => .INTEGER)
           | none => .INTEGER)
        | .node .ARRAY_ACCESS _ bcs =>
          (match bcs with
           | (.node .IDENTIFIER av _) :: _ =>
             (match lookupA st.arrayInfos av with
              | some ai =>
                (match lookupA st.recordTypes ai.elemTypeName with
                 | some rt =>
                   (match findField rt.fields fieldName with
                    | some (ft, _) => if ft = 0x7c then .REAL else .INTEGER
                    | none => .INTEGER)
                 | none => .INTEGER)
              | none => .INTEGER)
           | _ => .INTEGER)
        | _ => .INTEGER)
     | [] => .INTEGER)
  | _ => .INTEGER

/-- `WasmCompiler::emitTypeConversion`. -/
def emitTypeConversion (fromType toType : VType) : List Nat :=
  if fromType = toType then []
  else if fromType = .INTEGER ∧ toType = .REAL then [0xb7]
  else if fromType = .REAL ∧ toType = .INTEGER then
    emitF64Const (1 / 2) ++ [0xa0, 0xaa]
  else if fromType = .INTEGER ∧ toType = .BOOLEAN then
    emitI32Const 0 ++ [0x47]
  else if fromType = .REAL ∧ toType = .BOOLEAN then [0x00]
  else if fromType = .BOOLEAN ∧ toType = .INTEGER then []
  else if fromType = .BOOLEAN ∧ toType = .REAL then [0xb7]
  else []

/-- `WasmCompiler::validateAssignmentConversion`. -/
def validateAssignmentConversion (fromType toType : VType) : Bool :=
  if fromType = toType then true
  else ¬ (fromType = .REAL ∧ toType = .BOOLEAN)

/-! ## Expression code generation (`wasm_compiler.cpp` 1067-1222, 2006-2263)

The generators recurse through expression subtrees; a `fuel` argument
(spent one unit per call, always instantiated above the expression depth)
gives Lean totality while keeping the definitions kernel-reducible.  An
exhausted fuel yields no bytes; it is never reached at the call sites
below. -/

mutual
def generateExpression : Nat → WState → FuncInfo → ASTNode → List Nat
  | 0, _, _, _ => []
  | fuel + 1, st, F, e =>
    match e with
    | .node .LITERAL_INT s _ =>
        (match parseInt32 s with
         | some v => emitI32Const v
         | none => emitI32Const 0)
    | .node .LITERAL_BOOL s _ => emitI32Const (if s = "true" then 1 else 0)
    | .node .LITERAL_REAL s _ =>
        (match parseRealD s with
         | some q => emitF64Const q
         | none => emitF64Const 0)
    | .node .IDENTIFIER v _ => emitLocalGet st v
    | .node .ARRAY_ACCESS v cs => generateArrayAccess fuel st F (.node .ARRAY_ACCESS v cs)
    | .node .MEMBER_ACCESS v cs => generateMemberAccess fuel st F (.node .MEMBER_ACCESS v cs)
    | .node .BINARY_OP v cs => generateBinaryOp fuel st F (.node .BINARY_OP v cs)
    | .node .UNARY_OP op cs =>
        (match cs with
         | c0 :: _ =>
           if op = "not" then generateExpression fuel st F c0 ++ [0x45]
           else emitI32Const 0
         | [] => emitI32Const 0)
    | .node .ROUTINE_CALL v cs => generateCall fuel st F (.node .ROUTINE_CALL v cs)
    | .node .PRINT_STMT v cs => generatePrintStatement fuel st F (.node .PRINT_STMT v cs)
    | _ => emitI32Const 0

def generateBinaryOp : Nat → WState → FuncInfo → ASTNode → List Nat
  | 0, _, _, _ => []
  | fuel + 1, st, F, bin =>
    match bin.children with
    | L :: R :: _ =>
      if bin.children.length ≠ 2 then emitI32Const 0 else
      let leftType := getExpressionType st F L
      let rightType := getExpressionType st F R
      let resultType := promoteType leftType rightType
      let op := bin.val
      generateExpression fuel st F L ++
      (if leftType ≠ resultType then emitTypeConversion leftType resultType else []) ++
      generateExpression fuel st F R ++
      (if rightType ≠ resultType then emitTypeConversion rightType resultType else []) ++
      (if resultType = .REAL then
        (if op = "+" then [0xa0] else if op = "-" then [0xa1]
         else if op = "*" then [0xa2] else if op = "/" then [0xa3]
         else if op = "<" then [0x63] else if op = "<=" then [0x65]
         else if op = ">" then [0x64] else if op = ">=" then [0x66]
         else if op = "=" then [0x61] else if op = "/=" then [0x62]
         else [0xa0])
      else
        (if op = "+" then [0x6a] else if op = "-" then [0x6b]
         else if op = "*" then [0x6c] else if op = "/" then [0x6d]
         else if op = "%" then [0x6f] else if op = "and" then [0x71]
         else if op = "or" then [0x72] else if op = "xor" then [0x73]
         else if op = "<" then [0x48] else if op = "<=" then [0x4c]
         else if op = ">" then [0x4a] else if op = ">=" then [0x4e]
         else if op = "=" then [0x46] else if op = "/=" then [0x47]
         else []))
    | _ => emitI32Const 0

def generateCall : Nat → WState → FuncInfo → ASTNode → List Nat
  | 0, _, _, _ => []
  | fuel + 1, st, F, call =>
    let args := call.children.foldl
      (fun (acc : List ASTNode) ch =>
        if ch.typ = .ARGUMENT_LIST then acc ++ ch.children else acc ++ [ch]) []
    let argBytes := generateExpressionList fuel st F args
    match lookupA st.funcIndexByName call.val with
    | none => argBytes ++ emitI32Const 0
    | some idx => argBytes ++ 0x10 :: writeUnsignedLeb128 idx

def generateExpressionList : Nat → WState → FuncInfo → List ASTNode → List Nat
  | 0, _, _, _ => []
  | fuel + 1, st, F, l =>
    match l with
    | [] => []
    | a :: rest => generateExpression fuel st F a ++ generateExpressionList fuel st F rest

def generatePrintStatement : Nat → WState → FuncInfo → ASTNode → List Nat
  | 0, _, _, _ => []
  | fuel + 1, st, F, p =>
    match p.children with
    | exprList :: _ =>
      if exprList.typ ≠ .EXPRESSION_LIST then []
      else generatePrintItems fuel st F exprList.children
    | [] => []

def generatePrintItems : Nat → WState → FuncInfo → List ASTNode → List Nat
  | 0, _, _, _ => []
  | fuel + 1, st, F, l =>
    match l with
    | [] => []
    | e :: rest =>
      (if e.typ = .LITERAL_STRING then []
       else generateExpression fuel st F e ++ [0x1a]) ++
      generatePrintItems fuel st F rest

def generateArrayAccess : Nat → WState → FuncInfo → ASTNode → List Nat
  | 0, _, _, _ => []
  | fuel + 1, st, F, arrayAccess =>
    match arrayAccess.children with
    | [arrayRef, indexExpr] =>
      (match arrayRef.typ with
       | .IDENTIFIER => generateSimpleArrayAccess fuel st F arrayRef indexExpr
       | .MEMBER_ACCESS => generateMemberArrayAccess fuel st F arrayRef indexExpr
       | .ARRAY_ACCESS => emitI32Const 0   -- multi-dimensional unsupported
       | _ => emitI32Const 0)
    | _ => emitI32Const 0

def generateSimpleArrayAccess : Nat → WState → FuncInfo → ASTNode → ASTNode → List Nat
  | 0, _, _, _, _ => []
  | fuel + 1, st, F, arrayRef, indexExpr =>
    let arrayName := arrayRef.val
    let infoAndGlobal : Option (ArrayInfo × Bool) :=
      match lookupA st.arrayInfos arrayName with
      | some ai => some (ai, false)
      | none =>
        match lookupA st.globalArrays arrayName with
        | some ai => some (ai, true)
        | none => none
    match infoAndGlobal with
    | none => emitI32Const 0
    | some (arrayInfo, isGlobal) =>
      (if isGlobal then emitI32Const arrayInfo.baseOffset else emitLocalGet st arrayName) ++
      generateExpression fuel st F indexExpr ++
      (let elemSize : Int := if arrayInfo.elemType = 0x7c then 8 else 4
       emitI32Const elemSize ++ [0x6c]) ++
      [0x6a] ++
      (if arrayInfo.elemType = 0x7c then [0x2c, 0x03] else [0x28, 0x02]) ++ [0x00]

def generateMemberArrayAccess : Nat → WState → FuncInfo → ASTNode → ASTNode → List Nat
  | 0, _, _, _, _ => []
  | fuel + 1, st, F, memberAccess, indexExpr =>
    match memberAccess.children with
    | [] => emitI32Const 0
    | base :: _ =>
      let fieldName := memberAccess.val
      match base with
      | .node .IDENTIFIER recordName _ =>
        (match lookupA st.recordVariables recordName with
         | none => emitI32Const 0
         | some rv =>
           match lookupA st.recordTypes rv.recordType with
           | none => emitLocalGet st recordName ++ emitI32Const 0
           | some rt =>
             match findField rt.fields fieldName with
             | none => emitLocalGet st recordName ++ emitI32Const 0
             | some (elemType, fieldOffset) =>
               emitLocalGet st recordName ++
               emitI32Const fieldOffset ++ [0x6a] ++
               generateExpression fuel st F indexExpr ++
               (let elemSize : Int := if elemType = 0x7c then 8 else 4
                emitI32Const elemSize ++ [0x6c]) ++
               [0x6a] ++
               (if elemType = 0x7c then [0x2c, 0x03] else [0x28, 0x02]) ++ [0x00])
      | .node .ARRAY_ACCESS _ bcs =>
        (match bcs with
         | [arrayRef, outerIndexExpr] =>
           (match arrayRef with
            | .node .IDENTIFIER outerArrayName _ =>
              (match lookupA st.arrayInfos outerArrayName with
               | none => emitI32Const 0
               | some outerInfo =>
                 match lookupA st.recordTypes outerInfo.elemTypeName with
                 | none => emitI32Const 0
                 | some rt =>
                   let addr :=
                     emitLocalGet st outerArrayName ++
                     generateExpression fuel st F outerIndexExpr ++
                     emitI32Const rt.totalSize ++ [0x6c, 0x6a]
                   match findField rt.fields fieldName with
                   | none => addr ++ emitI32Const 0
                   | some (elemType, fieldOffset) =>
                     addr ++
                     emitI32Const fieldOffset ++ [0x6a] ++
                     generateExpression fuel st F indexExpr ++
                     (let elemSize : Int := if elemType = 0x7c then 8 else 4
                      emitI32Const elemSize ++ [0x6c]) ++ [0x6a] ++
                     (if elemType = 0x7c then [0x2c, 0x03] else [0x28, 0x02]) ++ [0x00])
            | _ => emitI32Const 0)
         | _ => emitI32Const 0)
      | _ => emitI32Const 0

def generateMemberAccess : Nat → WState → FuncInfo → ASTNode → List Nat
  | 0, _, _, _ => []
  | fuel + 1, st, F, memberAccess =>
    match memberAccess.children with
    | [] => emitI32Const 0
    | base :: _ =>
      let fieldName := memberAccess.val
      match base with
      | .node .IDENTIFIER recordName _ =>
        (match lookupA st.recordVariables recordName with
         | none => emitI32Const 0
         | some rv =>
           match lookupA st.recordTypes rv.recordType with
           | none => emitI32Const 0
           | some rt =>
             match findField rt.fields fieldName with
             | none => emitI32Const 0
             | some (fieldType, fieldOffset) =>
               emitLocalGet st recordName ++ emitI32Const fieldOffset ++ [0x6a] ++
               (if fieldType = 0x7c then [0x2c, 0x03] else [0x28, 0x02]) ++ [0x00])
      | .node .ARRAY_ACCESS bv bcs =>
        (match resolveArrayAccessMember fuel st F (.node .ARRAY_ACCESS bv bcs) fieldName with
         | (bytes, st0, fieldType, _) =>
           if st0 = -1 then bytes ++ emitI32Const 0
           else
             bytes ++
             (if fieldType = 0x7c then [0x2c, 0x03] else [0x28, 0x02]) ++ [0x00])
      | _ => emitI32Const 0

def resolveArrayAccessMember :
    Nat → WState → FuncInfo → ASTNode → String → List Nat × Int × Nat × Int
  | 0, _, _, _, _ => ([], -1, 0x7f, 0)
  | fuel + 1, st, F, arrayAccess, fieldName =>
    match arrayAccess.children with
    | [arrayRef, indexExpr] =>
      (match arrayRef with
       | .node .IDENTIFIER arrayName _ =>
         (match lookupA st.arrayInfos arrayName with
          | none => ([], -1, 0x7f, 0)
          | some ai =>
            match lookupA st.recordTypes ai.elemTypeName with
            | none => ([], -1, 0x7f, 0)
            | some rt =>
              match findField rt.fields fieldName with
              | none => ([], -1, 0x7f, 0)
              | some (fieldType, fieldOffset) =>
                let fieldSize : Int := if fieldType = 0x7c then 8 else 4
                (emitLocalGet st arrayName ++
                 generateExpression fuel st F indexExpr ++
                 emitI32Const rt.totalSize ++ [0x6c, 0x6a] ++
                 emitI32Const fieldOffset ++ [0x6a],
                 0, fieldType, fieldSize))
       | _ => ([], -1, 0x7f, 0))
    | _ => ([], -1, 0x7f, 0)
end

/-- `WasmCompiler::resolveArrayMember`. -/
def resolveArrayMember (fuel : Nat) (st : WState) (F : FuncInfo)
    (memberAccess : ASTNode) : List Nat × Int × Nat × Int :=
  match memberAccess.children with
  | [] => ([], -1, 0x7f, 0)
  | base :: _ =>
    let fieldName := memberAccess.val
    match base with
    | .node .IDENTIFIER recordName _ =>
      (match lookupA st.recordVariables recordName with
       | none => ([], -1, 0x7f, 0)
       | some rv =>
         match lookupA st.recordTypes rv.recordType with
         | none => ([], -1, 0x7f, 0)
         | some rt =>
           match findField rt.fields fieldName with
           | none => ([], -1, 0x7f, 0)
           | some (fieldType, fieldOffset) =>
             let fieldSize : Int := if fieldType = 0x7c then 8 else 4
             (emitLocalGet st recordName ++ emitI32Const fieldOffset ++ [0x6a],
              0, fieldType, fieldSize))
    | .node .ARRAY_ACCESS bv bcs =>
      resolveArrayAccessMember fuel st F (.node .ARRAY_ACCESS bv bcs) fieldName
    | _ => ([], -1, 0x7f, 0)

/-- `WasmCompiler::generateArrayAssignment`; with `rhs = none` only the
element address is generated (the caller emits value and store). -/
def generateArrayAssignment (fuel : Nat) (st : WState) (F : FuncInfo)
    (arrayAccess : ASTNode) (rhs : Option ASTNode) : List Nat :=
  let genRhs : List Nat :=
    match rhs with
    | some r => generateExpression fuel st F r
    | none => []
  match arrayAccess.children with
  | [arrayRef, indexExpr] =>
    let baseAndInfo : Option (List Nat × Nat) :=
      match arrayRef with
      | .node .IDENTIFIER arrayName _ =>
        (match lookupA st.arrayInfos arrayName with
         | none => none
         | some ai => some (emitLocalGet st arrayName, ai.elemType))
      | .node .MEMBER_ACCESS mv mcs =>
        (match resolveArrayMember fuel st F (.node .MEMBER_ACCESS mv mcs) with
         | (bytes, st0, elemType, _) =>
           if st0 = -1 then none else some (bytes, elemType))
      | _ => none
    match baseAndInfo with
    | none => genRhs
    | some (baseBytes, elemType) =>
      baseBytes ++
      generateExpression fuel st F indexExpr ++
      (let elemSize : Int := if elemType = 0x7c then 8 else 4
       emitI32Const elemSize ++ [0x6c]) ++
      [0x6a] ++
      (match rhs with
       | some r =>
         generateExpression fuel st F r ++
         (if elemType = 0x7c then [0x39, 0x03] else [0x36, 0x02]) ++ [0x00]
       | none => [])
  | _ => genRhs

/-- `WasmCompiler::generateMemberAssignment` (wasm_compiler.cpp
1857-2005); with `rhs = none` only the field address is generated.  Note
the array-of-records path: the element address is
`base + index * recordSize + fieldOffset` with no 1-based index
adjustment. -/
def generateMemberAssignment (fuel : Nat) (st : WState) (F : FuncInfo)
    (memberAccess : ASTNode) (rhs : Option ASTNode) : List Nat :=
  let genRhs : List Nat :=
    match rhs with
    | some r => generateExpression fuel st F r
    | none => []
  match memberAccess.children with
  | [] => genRhs
  | base :: _ =>
    let fieldName := memberAccess.val
    let addrAndType : Option (List Nat × Nat) :=
      match base with
      | .node .IDENTIFIER recordName _ =>
        (match lookupA st.recordVariables recordName with
         | none => none
         | some rv =>
           match lookupA st.recordTypes rv.recordType with
           | none => none
           | some rt =>
             match findField rt.fields fieldName with
             | none => none
             | some (fieldType, fieldOffset) =>
               some (emitLocalGet st recordName ++ emitI32Const fieldOffset ++ [0x6a],
                     fieldType))
      | .node .ARRAY_ACCESS _ bcs =>
        (match bcs with
         | [arrayRef, indexExpr] =>
           (match arrayRef with
            | .node .IDENTIFIER arrayName _ =>
              (match lookupA st.arrayInfos arrayName with
               | none => none
               | some ai =>
                 match lookupA st.recordTypes ai.elemTypeName with
                 | none => none
                 | some rt =>
                   match findField rt.fields fieldName with
                   | none => none
                   | some (fieldType, fieldOffset) =>
                     some (emitLocalGet st arrayName ++
                           generateExpression fuel st F indexExpr ++
                           emitI32Const rt.totalSize ++ [0x6c, 0x6a] ++
                           emitI32Const fieldOffset ++ [0x6a],
                           fieldType))
            | _ => none)
         | _ => none)
      | _ => none
    match addrAndType with
    | none => genRhs
    | some (addrBytes, fieldType) =>
      addrBytes ++
      (match rhs with
       | some r =>
         generateExpression fuel st F r ++
         (if fieldType = 0x7c then [0x39, 0x03] else [0x36, 0x02]) ++ [0x00]
       | none => [])

/-- `WasmCompiler::generateAssignment` (wasm_compiler.cpp 605-734). -/
def generateAssignment (fuel : Nat) (st : WState) (F : FuncInfo) (a : ASTNode) : List Nat :=
  match a.children with
  | [lhs, rhs] =>
    let targetType := getExpressionType st F lhs
    let sourceType := getExpressionType st F rhs
    if ¬ validateAssignmentConversion sourceType targetType then []
    else
      match lhs with
      | .node .IDENTIFIER lv _ =>
        generateExpression fuel st F rhs ++
        emitTypeConversion sourceType targetType ++
        emitLocalSet st lv
      | .node .ARRAY_ACCESS av acs =>
        let lhsNode := ASTNode.node .ARRAY_ACCESS av acs
        let elemType : Nat :=
          match acs with
          | arrayRef :: _ =>
            (match arrayRef with
             | .node .IDENTIFIER an _ =>
               (match lookupA st.arrayInfos an with
                | some ai => ai.elemType
                | none => 0x7f)
             | .node .MEMBER_ACCESS fieldName mcs =>
               (match mcs with
                | mbase :: _ =>
                  (match mbase with
                   | .node .IDENTIFIER bn _ =>
                     (match lookupA st.recordVariables bn with
                      | some rv =>
                        (match lookupA st.recordTypes rv.recordType with
                         | some rt =>
                           (match findField rt.fields fieldName with
                            | some (ft, _) => ft
                            | none => 0x7f)
                         | none => 0x7f)
                      | none => 0x7f)
                   | .node .ARRAY_ACCESS _ obcs =>
                     (match obcs with
                      | (.node .IDENTIFIER outerName _) :: _ =>
                        (match lookupA st.arrayInfos outerName with
                         | some ai =>
                           (match lookupA st.recordTypes ai.elemTypeName with
                            | some rt =>
                              (match findField rt.fields fieldName with
                               | some (ft, _) => ft
                               | none => 0x7f)
                            | none => 0x7f)
                         | none => 0x7f)
                      | _ => 0x7f)
                   | _ => 0x7f)
                | [] => 0x7f)
             | _ => 0x7f)
          | [] => 0x7f
        generateArrayAssignment fuel st F lhsNode none ++
        generateExpression fuel st F rhs ++
        emitTypeConversion sourceType targetType ++
        (if elemType = 0x7c then [0x39, 0x03] else [0x36, 0x02]) ++ [0x00]
      | .node .MEMBER_ACCESS mv mcs =>
        let lhsNode := ASTNode.node .MEMBER_ACCESS mv mcs
        let fieldType : Nat :=
          match mcs with
          | mbase :: _ =>
            (match mbase with
             | .node .IDENTIFIER bn _ =>
               (match lookupA st.recordVariables bn with
                | some rv =>
                  (match lookupA st.recordTypes rv.recordType with
                   | some rt =>
                     (match findField rt.fields mv with
                      | some (ft, _) => ft
                      | none => 0x7f)
                   | none => 0x7f)
                | none => 0x7f)
             | .node .ARRAY_ACCESS _ bcs =>
               (match bcs with
                | (.node .IDENTIFIER an _) :: _ =>
                  (match lookupA st.arrayInfos an with
                   | some ai =>
                     (match lookupA st.recordTypes ai.elemTypeName with
                      | some rt =>
                        (match findField rt.fields mv with
                         | some (ft, _) => ft
                         | none => 0x7f)
                      | none => 0x7f)
                   | none => 0x7f)
                | _ => 0x7f)
             | _ => 0x7f)
          | [] => 0x7f
        generateMemberAssignment fuel st F lhsNode none ++
        generateExpression fuel st F rhs ++
        emitTypeConversion sourceType targetType ++
        (if fieldType = 0x7c then [0x39, 0x03] else [0x36, 0x02]) ++ [0x00]
      | _ => generateExpression fuel st F rhs
  | _ => []


/-! ## A decoder and straight-line evaluator for emitted byte sequences

Used to state stack-balance and address properties of concrete emitted
code.  Only the opcodes the examined sequences contain are decoded. -/

inductive SInstr where
  | localGet (i : Nat)
  | localSet (i : Nat)
  | i32const (v : Int)
  | i32add
  | i32mul
  | store (isF64 : Bool)
  deriving DecidableEq, Repr

def decodeULEB : List Nat → Option (Nat × List Nat)
  | [] => none
  | b :: r =>
    if b < 128 then some (b, r)
    else
      match decodeULEB r with
      | some (v, r') => some ((b - 128) + 128 * v, r')
      | none => none

/-- 7-bit groups of a signed LEB128, in stream order, plus the rest. -/
def slebGroups : List Nat → Option (List Nat × List Nat)
  | [] => none
  | b :: r =>
    if b < 128 then some ([b], r)
    else
      match slebGroups r with
      | some (gs, r') => some ((b - 128) :: gs, r')
      | none => none

def slebValue (gs : List Nat) : Int :=
  let raw : Nat := gs.foldr (fun g acc => acc * 128 + g) 0
  let bits := 7 * gs.length
  match gs.getLast? with
  | some last => if 64 ≤ last then (raw : Int) - 2 ^ bits else (raw : Int)
  | none => 0

def decodeSLEB (l : List Nat) : Option (Int × List Nat) :=
  match slebGroups l with
  | some (gs, r) => some (slebValue gs, r)
  | none => none

def decodeSeqF : Nat → List Nat → Option (List SInstr)
  | _, [] => some []
  | 0, _ => none
  | fuel + 1, b :: r =>
    if b = 0x20 then
      match decodeULEB r with
      | some (n, r') => (decodeSeqF fuel r').map (SInstr.localGet n :: ·)
      | none => none
    else if b = 0x21 then
      match decodeULEB r with
      | some (n, r') => (decodeSeqF fuel r').map (SInstr.localSet n :: ·)
      | none => none
    else if b = 0x41 then
      match decodeSLEB r with
      | some (v, r') => (decodeSeqF fuel r').map (SInstr.i32const v :: ·)
      | none => none
    else if b = 0x6a then (decodeSeqF fuel r).map (SInstr.i32add :: ·)
    else if b = 0x6c then (decodeSeqF fuel r).map (SInstr.i32mul :: ·)
    else if b = 0x36 then
      match r with
      | _ :: _ :: r' => (decodeSeqF fuel r').map (SInstr.store false :: ·)
      | _ => none
    else if b = 0x39 then
      match r with
      | _ :: _ :: r' => (decodeSeqF fuel r').map (SInstr.store true :: ·)
      | _ => none
    else none

def wasmDecode (l : List Nat) : Option (List SInstr) := decodeSeqF (l.length + 1) l

/-- Net operand-stack effect of one instruction (pushes minus pops). -/
def stackDelta : SInstr → Int
  | .localGet _ => 1
  | .localSet _ => -1
  | .i32const _ => 1
  | .i32add => -1
  | .i32mul => -1
  | .store _ => -2

def netStackDelta (l : List SInstr) : Int := (l.map stackDelta).sum

def countLocalGets (l : List SInstr) : Nat :=
  (l.filter (fun i => match i with | .localGet _ => true | _ => false)).length

/-- Straight-line evaluation of a decoded sequence on an operand stack,
given the runtime values of the locals (i32 arithmetic wraps). -/
def evalInstrs (locals : Nat → Int) : List SInstr → List Int → Option (List Int)
  | [], stack => some stack
  | .localGet n :: rest, stack => evalInstrs locals rest (locals n :: stack)
  | .localSet _ :: rest, stack =>
      (match stack with
       | _ :: stack' => evalInstrs locals rest stack'
       | [] => none)
  | .i32const v :: rest, stack => evalInstrs locals rest (wrap32 v :: stack)
  | .i32add :: rest, stack =>
      (match stack with
       | b :: a :: stack' => evalInstrs locals rest (wrap32 (a + b) :: stack')
       | _ => none)
  | .i32mul :: rest, stack =>
      (match stack with
       | b :: a :: stack' => evalInstrs locals rest (wrap32 (a * b) :: stack')
       | _ => none)
  | .store _ :: rest, stack =>
      (match stack with
       | _ :: _ :: stack' => evalInstrs locals rest stack'
       | _ => none)

/-- Decode a byte sequence and evaluate it from an empty stack. -/
def evalBytes (locals : Nat → Int) (l : List Nat) : Option (List Int) :=
  match wasmDecode l with
  | some instrs => evalInstrs locals instrs []
  | none => none

/-! ## The analyzer pipeline on a program (`SemanticAnalyzer::analyze`)

The passes in their source order: type definitions, global variables,
declarations, outer-scope variables, constant folding, then the semantic
checks and the usage collection run on the folded tree.  (The
declared-before-usage scope checker contributes only the `declOk` flag to
the final conjunction and is not needed by any claim; `analyzeReturns`
keeps it abstract.) -/

structure AnalyzerRun where
  tds : List (String × ASTNode)
  globals : List String
  declared : List String
  outer : List String
  folded : ASTNode
  semOk : Bool
  semSt : SemState
  usage : Usage
  deriving Repr, DecidableEq

def runAnalyzerPasses (p : ASTNode) : AnalyzerRun :=
  let tds := collectTypeDefinitions p []
  let globals := trackGlobalVariables p []
  let declared := collectAllDeclarations p []
  let outer := collectOuterScopeVariables declared p 0 [] []
  let folded := foldConstantsInPlace p
  let sem := checkSemantics tds declared folded SemState.empty
  let usage := collectCompleteUsage folded Usage.empty
  ⟨tds, globals, declared, outer, folded, sem.1, sem.2, usage⟩

def dceEnvOf (r : AnalyzerRun) : DceEnv :=
  ⟨r.usage.reads, r.semSt.written, r.globals, r.usage.called, r.outer, r.tds⟩

/-! ## The emitter pipeline state for one function

`buildCodeSection` runs `resetLocals`, `addParametersToLocals` and
`analyzeLocalVariables` before generating a function's body; the state
after those calls is what the body generators see. -/

def emptyWState : WState := ⟨[], [], [], 0, [], [], [], [], [], 0⟩

def emptyFunc : FuncInfo := ⟨"", [], [], .node .PROGRAM "" []⟩

def mainFuncOf (p : ASTNode) : FuncInfo :=
  match collectFunctions p with
  | some st =>
    (match st.funcs.find? (fun f => f.name = "main") with
     | some F => F
     | none => emptyFunc)
  | none => emptyFunc

def wstateForMain (p : ASTNode) : WState :=
  match collectFunctions p with
  | some st =>
    (match st.funcs.find? (fun f => f.name = "main") with
     | some F => (analyzeLocalVariables (addParametersToLocals (resetLocals st) F) F).2
     | none => st)
  | none => emptyWState

/-! ## Concrete programs used by the claims -/

def prim (s : String) : ASTNode := .node .PRIMITIVE_TYPE s []

/-- `var g : integer` at program scope; `main` assigns `g := 5`. -/
def programC1 : ASTNode :=
  mkN .PROGRAM "" [
    mkN .VAR_DECL "g" [prim "integer"],
    mkN .ROUTINE_DECL "main" [prim "integer",
      mkN .BODY "" [
        mkN .ASSIGNMENT "" [ident "g", ilit "5"],
        mkN .RETURN_STMT "" [ilit "0"]]]]

/-- Scenario 6 of the specification: `type Pair is record a, b : integer`,
`var xs : array[3] of Pair`, `xs[2].b := 99`. -/
def scenario6 : ASTNode :=
  mkN .PROGRAM "" [
    mkN .TYPE_DECL "Pair" [
      mkN .RECORD_TYPE "" [
        mkN .BODY "" [
          mkN .VAR_DECL "a" [prim "integer"],
          mkN .VAR_DECL "b" [prim "integer"]]]],
    mkN .ROUTINE_DECL "main" [prim "integer",
      mkN .BODY "" [
        mkN .VAR_DECL "xs" [mkN .ARRAY_TYPE "" [ilit "3", mkN .USER_TYPE "Pair" []]],
        mkN .ASSIGNMENT "" [
          mkN .MEMBER_ACCESS "b" [mkN .ARRAY_ACCESS "" [ident "xs", ilit "2"]],
          ilit "99"],
        mkN .RETURN_STMT "" [
          mkN .MEMBER_ACCESS "b" [mkN .ARRAY_ACCESS "" [ident "xs", ilit "2"]]]]]]

/-- A routine-local `x` written only from inside a for-loop body and never
read: `x` lands in the outer-scope-variable set, yet the disabled
preservation branch lets `isDeadAssignment` classify `x := 5` dead. -/
def programC3 : ASTNode :=
  mkN .PROGRAM "" [
    mkN .ROUTINE_DECL "main" [prim "integer",
      mkN .BODY "" [
        mkN .VAR_DECL "x" [prim "integer"],
        mkN .FOR_LOOP "i" [
          mkN .RANGE "" [ilit "1", ilit "3"],
          mkN .BODY "" [mkN .ASSIGNMENT "" [ident "x", ilit "5"]]],
        mkN .RETURN_STMT "" [ilit "0"]]]]

/-- Scenario 3 of the specification: `var a : array[5] of integer;
return a[6]`. -/
def programC4 : ASTNode :=
  mkN .PROGRAM "" [
    mkN .ROUTINE_DECL "main" [prim "integer",
      mkN .BODY "" [
        mkN .VAR_DECL "a" [mkN .ARRAY_TYPE "" [ilit "5", prim "integer"]],
        mkN .RETURN_STMT "" [mkN .ARRAY_ACCESS "" [ident "a", ilit "6"]]]]]

/-- No globals; `main` holds a 100000-element integer array (400000 bytes
of linear memory, laid out only when the code section is built). -/
def programC5 : ASTNode :=
  mkN .PROGRAM "" [
    mkN .ROUTINE_DECL "main" [prim "integer",
      mkN .BODY "" [
        mkN .VAR_DECL "a" [mkN .ARRAY_TYPE "" [ilit "100000", prim "integer"]],
        mkN .RETURN_STMT "" [ilit "0"]]]]

/-- A real-typed global `r` and a real-typed local array `rs`. -/
def programC6 : ASTNode :=
  mkN .PROGRAM "" [
    mkN .VAR_DECL "r" [prim "real"],
    mkN .ROUTINE_DECL "main" [prim "real",
      mkN .BODY "" [
        mkN .VAR_DECL "rs" [mkN .ARRAY_TYPE "" [ilit "2", prim "real"]],
        mkN .RETURN_STMT "" [ident "r"]]]]

/-- An uncalled routine `foo` next to `main`. -/
def programC7 : ASTNode :=
  mkN .PROGRAM "" [
    mkN .ROUTINE_DECL "foo" [prim "integer",
      mkN .BODY "" [mkN .RETURN_STMT "" [ilit "3"]]],
    mkN .ROUTINE_DECL "main" [prim "integer",
      mkN .BODY "" [mkN .RETURN_STMT "" [ilit "0"]]]]

/-- `arr[i] := 7` where `i` occurs only as the bare index of the
assignment target. -/
def programC8 : ASTNode :=
  mkN .PROGRAM "" [
    mkN .ROUTINE_DECL "main" [prim "integer",
      mkN .BODY "" [
        mkN .VAR_DECL "arr" [mkN .ARRAY_TYPE "" [ilit "5", prim "integer"]],
        mkN .VAR_DECL "i" [prim "integer"],
        mkN .ASSIGNMENT "" [mkN .ARRAY_ACCESS "" [ident "arr", ident "i"], ilit "7"],
        mkN .RETURN_STMT "" [ilit "0"]]]]

/-- The routine body of `programC8` on its own (the node `optimizeAST`
hands to `optimizeUnusedDeclarations`). -/
def bodyC8 : ASTNode :=
  mkN .BODY "" [
    mkN .VAR_DECL "arr" [mkN .ARRAY_TYPE "" [ilit "5", prim "integer"]],
    mkN .VAR_DECL "i" [prim "integer"],
    mkN .ASSIGNMENT "" [mkN .ARRAY_ACCESS "" [ident "arr", ident "i"], ilit "7"],
    mkN .RETURN_STMT "" [ilit "0"]]

/-- The expected result of dead-code elimination on `programC3`: the
assignment `x := 5` inside the for-loop body is gone. -/
def programC3afterDce : ASTNode :=
  mkN .PROGRAM "" [
    mkN .ROUTINE_DECL "main" [prim "integer",
      mkN .BODY "" [
        mkN .VAR_DECL "x" [prim "integer"],
        mkN .FOR_LOOP "i" [
          mkN .RANGE "" [ilit "1", ilit "3"],
          mkN .BODY "" []],
        mkN .RETURN_STMT "" [ilit "0"]]]]

/-- The page count the emitted module actually declares: `compile()` builds
the memory section right after `collectFunctions`, before `buildCodeSection`
lays out any function-local arrays or records (`none` when `compile` bails
out before reaching the section). -/
def compiledMemoryPages (p : ASTNode) : Option Int :=
  (collectFunctions p).map totalMemoryPages

/-- A child node that is a routine declaration (full or forward), the kind
claim C7 ranges over. -/
def isRoutineDeclChild (c : ASTNode) : Bool :=
  decide (c.typ = .ROUTINE_DECL ∨ c.typ = .ROUTINE_FORWARD_DECL)

/-- The names of the routine declarations in a child list, in order. -/
def routineNames (l : List ASTNode) : List String :=
  (l.filter (fun c => isRoutineDeclChild c)).map ASTNode.val

/-- The keep condition `optimizeUnusedDeclarations` applies to a routine
declaration child: called, or one of the entry-point names. -/
def keepRoutine (called : List String) (c : ASTNode) : Bool :=
  decide (called.contains c.val = true ∨ c.val = "main" ∨ c.val = "testRunner")

/-! # Theorems

Supporting lemmas first, then one theorem per claim (C1-C10), with
counterexamples and witnesses where the claim status calls for them. -/

/-- The node-level rewrite either keeps the node (with its children) or
replaces it by a freshly built literal leaf. -/
theorem foldStep_spec (t : ASTNodeType) (v : String) (cs : List ASTNode) :
    foldStep t v cs = .node t v cs ∨ ∃ l : Lit, foldStep t v cs = l.toNode := by
  cases t <;> try exact Or.inl rfl
  case UNARY_OP =>
    cases cs with
    | nil => exact Or.inl rfl
    | cons arg rest =>
      cases h : unaryFold v arg with
      | none => exact Or.inl (by simp [foldStep, h])
      | some l => exact Or.inr ⟨l, by simp [foldStep, h]⟩
  case BINARY_OP =>
    match cs with
    | [] => exact Or.inl rfl
    | [L] => exact Or.inl rfl
    | L :: R :: rest =>
      cases h : binFold v L R with
      | none => exact Or.inl (by simp [foldStep, h])
      | some l => exact Or.inr ⟨l, by simp [foldStep, h]⟩

/-- A freshly built literal leaf is a fixed point of the folder. -/
theorem foldLit_fixed (l : Lit) : foldConstantsInPlace l.toNode = l.toNode := by
  cases l <;> rfl

mutual
theorem foldConstantsInPlace_idem (n : ASTNode) :
    foldConstantsInPlace (foldConstantsInPlace n) = foldConstantsInPlace n := by
  obtain ⟨t, v, cs⟩ := n
  have hu : foldConstantsInPlace (.node t v cs) = foldStep t v (foldChildren cs) := by
    simp [foldConstantsInPlace]
  rw [hu]
  rcases foldStep_spec t v (foldChildren cs) with h | ⟨l, h⟩
  · rw [h]
    have hu2 : foldConstantsInPlace (.node t v (foldChildren cs))
        = foldStep t v (foldChildren (foldChildren cs)) := by
      simp [foldConstantsInPlace]
    rw [hu2, foldChildren_idem cs]
    exact h
  · rw [h]
    exact foldLit_fixed l
termination_by sizeOf n
theorem foldChildren_idem (l : List ASTNode) :
    foldChildren (foldChildren l) = foldChildren l := by
  match l with
  | [] => rfl
  | c :: cs =>
    have h1 := foldConstantsInPlace_idem c
    have h2 := foldChildren_idem cs
    simp [foldChildren, h1, h2]
termination_by sizeOf l
end

/-- C10: constant folding is idempotent — applying
`foldConstantsInPlace` to an already-folded tree changes nothing:
`fold (fold e) = fold e` for every AST expression `e`. -/
theorem C10_fold_idempotent (e : ASTNode) :
    foldConstantsInPlace (foldConstantsInPlace e) = foldConstantsInPlace e :=
  foldConstantsInPlace_idem e

/-- C1: for an assignment to a global variable the claim says the emitted
store sequence pushes the address and the value back *exactly once each*
before the store opcode and leaves the operand stack balanced (net effect
`-1`: the computed value consumed).  The code (`emitLocalSet`, global
branch) emits `local.set t1; i32.const addr; local.set t2;` followed by
`local.get t2; local.get t1` **twice**, so four pushes feed a store that
pops two: the net stack effect is `+1`, not `-1`, and two operands are
left behind. -/
theorem C1_global_store_sequence :
    emitLocalSet (wstateForMain programC1) "g"
      = [0x21, 0x00, 0x41, 0x00, 0x21, 0x01, 0x20, 0x01, 0x20, 0x00,
         0x20, 0x01, 0x20, 0x00, 0x36, 0x02, 0x00]
    ∧ wasmDecode (emitLocalSet (wstateForMain programC1) "g")
      = some [.localSet 0, .i32const 0, .localSet 1, .localGet 1, .localGet 0,
              .localGet 1, .localGet 0, .store false]
    ∧ (wasmDecode (emitLocalSet (wstateForMain programC1) "g")).map countLocalGets
      = some 4
    ∧ (wasmDecode (emitLocalSet (wstateForMain programC1) "g")).map netStackDelta
      = some 1
    ∧ ¬ (wasmDecode (emitLocalSet (wstateForMain programC1) "g")).map countLocalGets
      = some 2
    ∧ ¬ (wasmDecode (emitLocalSet (wstateForMain programC1) "g")).map netStackDelta
      = some (-1) := by
  refine ⟨by decide, by decide, by decide, by decide, by decide, by decide⟩

/-- C2: scenario 6.  The record-layout half of the claim holds: `Pair` is
laid out `a@0, b@4`, total size 8.  The address half fails: for
`xs[2].b := 99` the emitted address computation is
`base + 2*8 + 4 = base + 20` (the index is used unscaled, with no 1-based
`(i-1)` adjustment), not `base + (2-1)*8 + 4 = base + 12`.  With the array
base local holding its initial value 0 the computed address is 20. -/
theorem C2_scenario6_layout_and_address :
    lookupA (collectRecordTypes scenario6) "Pair"
      = some ⟨"Pair", [("a", 0x7f, 0), ("b", 0x7f, 4)], 8⟩
    ∧ generateMemberAssignment 10 (wstateForMain scenario6) (mainFuncOf scenario6)
        (mkN .MEMBER_ACCESS "b" [mkN .ARRAY_ACCESS "" [ident "xs", ilit "2"]]) none
      = [0x20, 0x00, 0x41, 0x02, 0x41, 0x08, 0x6c, 0x6a, 0x41, 0x04, 0x6a]
    ∧ evalBytes (fun _ => 0)
        (generateMemberAssignment 10 (wstateForMain scenario6) (mainFuncOf scenario6)
          (mkN .MEMBER_ACCESS "b" [mkN .ARRAY_ACCESS "" [ident "xs", ilit "2"]]) none)
      = some [0 + 2 * 8 + 4]
    ∧ (0 + 2 * 8 + 4 : Int) = 20
    ∧ ¬ evalBytes (fun _ => 0)
        (generateMemberAssignment 10 (wstateForMain scenario6) (mainFuncOf scenario6)
          (mkN .MEMBER_ACCESS "b" [mkN .ARRAY_ACCESS "" [ident "xs", ilit "2"]]) none)
      = some [0 + (2 - 1) * 8 + 4] := by
  refine ⟨by decide, by decide, by decide, by decide, by decide⟩

/-! ## Step lemmas for evaluating the analyzer pipeline

`collectCompleteUsage` (and, milder, `checkSemantics`) thread an
accumulator through every node, which makes one-shot kernel evaluation of a
whole program blow up; the lemmas below let the concrete runs be computed
level by level with literal accumulators. -/

theorem ccuList_nil (u : Usage) : collectCompleteUsageList [] u = u := rfl

theorem ccuList_cons (c : ASTNode) (cs : List ASTNode) (u : Usage) :
    collectCompleteUsageList (c :: cs) u = collectCompleteUsageList cs (collectCompleteUsage c u) := rfl

theorem ccu_PROGRAM (v : String) (cs : List ASTNode) (u : Usage) :
    collectCompleteUsage (mkN .PROGRAM v cs) u = collectCompleteUsageList cs u := rfl

theorem ccu_ROUTINE_DECL (v : String) (cs : List ASTNode) (u : Usage) :
    collectCompleteUsage (mkN .ROUTINE_DECL v cs) u = collectCompleteUsageList cs u := rfl

theorem ccu_BODY (v : String) (cs : List ASTNode) (u : Usage) :
    collectCompleteUsage (mkN .BODY v cs) u = collectCompleteUsageList cs u := rfl

theorem rap_tds (p : ASTNode) :
    (runAnalyzerPasses p).tds = collectTypeDefinitions p [] := rfl

theorem rap_globals (p : ASTNode) :
    (runAnalyzerPasses p).globals = trackGlobalVariables p [] := rfl

theorem rap_declared (p : ASTNode) :
    (runAnalyzerPasses p).declared = collectAllDeclarations p [] := rfl

theorem rap_outer (p : ASTNode) :
    (runAnalyzerPasses p).outer
      = collectOuterScopeVariables (collectAllDeclarations p []) p 0 [] [] := rfl

theorem rap_folded (p : ASTNode) :
    (runAnalyzerPasses p).folded = foldConstantsInPlace p := rfl

theorem rap_semOk (p : ASTNode) :
    (runAnalyzerPasses p).semOk
      = (checkSemantics (collectTypeDefinitions p []) (collectAllDeclarations p [])
          (foldConstantsInPlace p) SemState.empty).1 := rfl

theorem rap_semSt (p : ASTNode) :
    (runAnalyzerPasses p).semSt
      = (checkSemantics (collectTypeDefinitions p []) (collectAllDeclarations p [])
          (foldConstantsInPlace p) SemState.empty).2 := rfl

theorem rap_usage (p : ASTNode) :
    (runAnalyzerPasses p).usage
      = collectCompleteUsage (foldConstantsInPlace p) Usage.empty := rfl

theorem dceEnvOf_mk (r : AnalyzerRun) :
    dceEnvOf r = ⟨r.usage.reads, r.semSt.written, r.globals, r.usage.called, r.outer, r.tds⟩ := rfl

/-! ## The analyzer pipeline on `programC3` -/

set_option maxHeartbeats 1000000 in
theorem usageC3 : collectCompleteUsage programC3 Usage.empty = ⟨[], []⟩ := by
  have hp : programC3 = mkN .PROGRAM "" [mkN .ROUTINE_DECL "main" [prim "integer",
      mkN .BODY "" [
        mkN .VAR_DECL "x" [prim "integer"],
        mkN .FOR_LOOP "i" [mkN .RANGE "" [ilit "1", ilit "3"],
          mkN .BODY "" [mkN .ASSIGNMENT "" [ident "x", ilit "5"]]],
        mkN .RETURN_STMT "" [ilit "0"]]]] := rfl
  have e1 : collectCompleteUsage (prim "integer") Usage.empty = Usage.empty := by decide
  have e2 : collectCompleteUsage (mkN .VAR_DECL "x" [prim "integer"]) Usage.empty = Usage.empty := by decide
  have e3 : collectCompleteUsage (mkN .FOR_LOOP "i" [mkN .RANGE "" [ilit "1", ilit "3"],
      mkN .BODY "" [mkN .ASSIGNMENT "" [ident "x", ilit "5"]]]) Usage.empty = Usage.empty := by decide
  have e4 : collectCompleteUsage (mkN .RETURN_STMT "" [ilit "0"]) Usage.empty = Usage.empty := by decide
  rw [hp, ccu_PROGRAM, ccuList_cons, ccuList_nil, ccu_ROUTINE_DECL, ccuList_cons, e1,
      ccuList_cons, ccuList_nil, ccu_BODY, ccuList_cons, e2, ccuList_cons, e3,
      ccuList_cons, e4, ccuList_nil]
  rfl

set_option maxHeartbeats 4000000 in
theorem semC3 : checkSemantics [] ["main", "x"] programC3 SemState.empty
    = (true, ⟨[], [], ["x"], [], []⟩) := by decide

theorem hfoldC3 : foldConstantsInPlace programC3 = programC3 := by decide

theorem husageProjC3 : (runAnalyzerPasses programC3).usage = ⟨[], []⟩ := by
  rw [rap_usage, hfoldC3, usageC3]

theorem hsemStProjC3 : (runAnalyzerPasses programC3).semSt = ⟨[], [], ["x"], [], []⟩ := by
  have h1 : collectTypeDefinitions programC3 [] = [] := by decide
  have h2 : collectAllDeclarations programC3 [] = ["main", "x"] := by decide
  rw [rap_semSt, h1, h2, hfoldC3, semC3]

theorem hglobalsProjC3 : (runAnalyzerPasses programC3).globals = [] := by
  rw [rap_globals]; decide

theorem houterProjC3 : (runAnalyzerPasses programC3).outer = ["x"] := by
  rw [rap_outer]; decide

theorem htdsProjC3 : (runAnalyzerPasses programC3).tds = [] := by
  rw [rap_tds]; decide

theorem hfoldedProjC3 : (runAnalyzerPasses programC3).folded = programC3 := by
  rw [rap_folded, hfoldC3]

theorem envC3 : dceEnvOf (runAnalyzerPasses programC3) = ⟨[], ["x"], [], [], ["x"], []⟩ := by
  rw [dceEnvOf_mk, husageProjC3, hsemStProjC3, hglobalsProjC3, houterProjC3, htdsProjC3]

set_option maxHeartbeats 8000000 in
/-- C3: the claim says no removed assignment targets an outer-scope
variable.  On `programC3` the analyzer itself puts `x` into the
outer-scope-variable set, the right-hand side `5` is side-effect free, yet
`isDeadAssignment` classifies `x := 5` dead (its outer-scope preservation
branch is disabled by `if (false)` in the source) and `optimizeDeadCode`
removes the assignment from the loop body. -/
theorem C3_outer_scope_assignment_removed :
    (runAnalyzerPasses programC3).outer.contains "x" = true
    ∧ getAssignmentTarget (mkN .ASSIGNMENT "" [ident "x", ilit "5"]) = "x"
    ∧ hasSideEffectsOrExternalAccess (dceEnvOf (runAnalyzerPasses programC3)).globals
        (dceEnvOf (runAnalyzerPasses programC3)).outer (ilit "5") = false
    ∧ isDeadAssignment (dceEnvOf (runAnalyzerPasses programC3)).globals
        (dceEnvOf (runAnalyzerPasses programC3)).outer
        (dceEnvOf (runAnalyzerPasses programC3)).reads
        (mkN .ASSIGNMENT "" [ident "x", ilit "5"]) = true
    ∧ optimizeDeadCode (dceEnvOf (runAnalyzerPasses programC3))
        (runAnalyzerPasses programC3).folded = programC3afterDce := by
  rw [envC3, houterProjC3, hfoldedProjC3]
  refine ⟨by decide, by decide, by decide, by decide, by decide⟩

/-- C6: the claim says every f64 load uses opcode `0x2b` with alignment
exponent 3.  The code emits byte `0x2c` (commented `f64.load` in the
source, but `0x2b` is the f64.load opcode) at every such site: the read of
the real-typed global `r` and the real-typed array element read both end
in `0x2c 0x03 0x00`, and `0x2b` appears nowhere in either sequence. -/
theorem C6_f64_load_opcode :
    emitLocalGet (wstateForMain programC6) "r" = [0x41, 0x00, 0x2c, 0x03, 0x00]
    ∧ generateSimpleArrayAccess 10 (wstateForMain programC6) (mainFuncOf programC6)
        (ident "rs") (ilit "1")
      = [0x20, 0x00, 0x41, 0x01, 0x41, 0x08, 0x6c, 0x6a, 0x2c, 0x03, 0x00]
    ∧ (emitLocalGet (wstateForMain programC6) "r").contains 0x2b = false
    ∧ (generateSimpleArrayAccess 10 (wstateForMain programC6) (mainFuncOf programC6)
        (ident "rs") (ilit "1")).contains 0x2b = false
    ∧ (0x2c : Nat) ≠ 0x2b := by
  refine ⟨by decide, by decide, by decide, by decide, by decide⟩

/-! ## The analyzer pipeline on `programC4` (scenario 3) -/

theorem hfoldC4 : foldConstantsInPlace programC4 = programC4 := by decide

set_option maxHeartbeats 4000000 in
theorem semC4 : checkSemantics [] ["main", "a"] programC4 SemState.empty
    = (false, ⟨[("a", 5)], [], [], [], []⟩) := by decide

theorem hsemOkProjC4 : (runAnalyzerPasses programC4).semOk = false := by
  have h1 : collectTypeDefinitions programC4 [] = [] := by decide
  have h2 : collectAllDeclarations programC4 [] = ["main", "a"] := by decide
  rw [rap_semOk, h1, h2, hfoldC4, semC4]

theorem hsemStProjC4 : (runAnalyzerPasses programC4).semSt = ⟨[("a", 5)], [], [], [], []⟩ := by
  have h1 : collectTypeDefinitions programC4 [] = [] := by decide
  have h2 : collectAllDeclarations programC4 [] = ["main", "a"] := by decide
  rw [rap_semSt, h1, h2, hfoldC4, semC4]

/-- C4: the claim says a literal index out of `1..length` produces an
"out of bounds" error diagnostic and overall failure.  The failure half
holds, the diagnostic half does not: `checkSingleIndex` returns `false`
for the literal-out-of-range case without calling `error(...)` (the only
branch of that function that reports nothing), so on scenario 3
(`return a[6]` against `var a : array[5] of integer`) the analysis fails
with an *empty* error list. -/
theorem C4_oob_literal_silent_failure :
    checkSingleIndex "a" 5 (ilit "6") 1 SemState.empty = (false, SemState.empty)
    ∧ (runAnalyzerPasses programC4).semOk = false
    ∧ (runAnalyzerPasses programC4).semSt.errors = []
    ∧ analyzeReturns true (runAnalyzerPasses programC4).semOk
        (runAnalyzerPasses programC4).semSt.errors = false := by
  rw [hsemOkProjC4, hsemStProjC4]
  exact ⟨by decide, rfl, rfl, rfl⟩

/-! ## The analyzer pipeline on `programC8` -/

theorem usageC8 : collectCompleteUsage programC8 Usage.empty = ⟨[], []⟩ := by
  have hp : programC8 = mkN .PROGRAM "" [mkN .ROUTINE_DECL "main" [prim "integer",
      mkN .BODY "" [
        mkN .VAR_DECL "arr" [mkN .ARRAY_TYPE "" [ilit "5", prim "integer"]],
        mkN .VAR_DECL "i" [prim "integer"],
        mkN .ASSIGNMENT "" [mkN .ARRAY_ACCESS "" [ident "arr", ident "i"], ilit "7"],
        mkN .RETURN_STMT "" [ilit "0"]]]] := rfl
  have e1 : collectCompleteUsage (prim "integer") Usage.empty = Usage.empty := by decide
  have e2 : collectCompleteUsage (mkN .VAR_DECL "arr" [mkN .ARRAY_TYPE "" [ilit "5", prim "integer"]])
      Usage.empty = Usage.empty := by decide
  have e3 : collectCompleteUsage (mkN .VAR_DECL "i" [prim "integer"]) Usage.empty = Usage.empty := by decide
  have e4 : collectCompleteUsage (mkN .ASSIGNMENT "" [mkN .ARRAY_ACCESS "" [ident "arr", ident "i"],
      ilit "7"]) Usage.empty = Usage.empty := by decide
  have e5 : collectCompleteUsage (mkN .RETURN_STMT "" [ilit "0"]) Usage.empty = Usage.empty := by decide
  rw [hp, ccu_PROGRAM, ccuList_cons, ccuList_nil, ccu_ROUTINE_DECL, ccuList_cons, e1,
      ccuList_cons, ccuList_nil, ccu_BODY, ccuList_cons, e2, ccuList_cons, e3,
      ccuList_cons, e4, ccuList_cons, e5, ccuList_nil]
  rfl

set_option maxHeartbeats 4000000 in
theorem semC8 : checkSemantics [] ["main", "arr", "i"] programC8 SemState.empty
    = (true, ⟨[("arr", 5)], [], ["arr"], [],
        ["Dynamic index in dimension 1 for array 'arr' - cannot verify bounds at compile time"]⟩) := by
  decide

theorem hfoldC8 : foldConstantsInPlace programC8 = programC8 := by decide

theorem husageProjC8 : (runAnalyzerPasses programC8).usage = ⟨[], []⟩ := by
  rw [rap_usage, hfoldC8, usageC8]

theorem hsemStProjC8 : (runAnalyzerPasses programC8).semSt
    = ⟨[("arr", 5)], [], ["arr"], [],
       ["Dynamic index in dimension 1 for array 'arr' - cannot verify bounds at compile time"]⟩ := by
  have h1 : collectTypeDefinitions programC8 [] = [] := by decide
  have h2 : collectAllDeclarations programC8 [] = ["main", "arr", "i"] := by decide
  rw [rap_semSt, h1, h2, hfoldC8, semC8]

theorem hglobalsProjC8 : (runAnalyzerPasses programC8).globals = [] := by
  rw [rap_globals]; decide

theorem houterProjC8 : (runAnalyzerPasses programC8).outer = ["arr", "i"] := by
  rw [rap_outer]; decide

theorem htdsProjC8 : (runAnalyzerPasses programC8).tds = [] := by
  rw [rap_tds]; decide

theorem envC8 : dceEnvOf (runAnalyzerPasses programC8) = ⟨[], ["arr"], [], [], ["arr", "i"], []⟩ := by
  rw [dceEnvOf_mk, husageProjC8, hsemStProjC8, hglobalsProjC8, houterProjC8, htdsProjC8]

set_option maxHeartbeats 4000000 in
/-- C8: in `arr[i] := 7` the index variable `i` is never added to the read
set: `trackVariableWrite` records only the base chain `arr`,
`ARRAY_ACCESS` is not an expression context, the usage pass on the whole
program collects no reads at all, and `optimizeUnusedDeclarations` on the
routine body removes the declaration of `i` (and of write-only `arr`). -/
theorem C8_index_variable_unread :
    trackVariableWrite (mkN .ARRAY_ACCESS "" [ident "arr", ident "i"]) [] = ["arr"]
    ∧ isExpressionContext .ARRAY_ACCESS = false
    ∧ (collectCompleteUsage programC8 Usage.empty).reads = []
    ∧ (dceEnvOf (runAnalyzerPasses programC8)).reads.contains "i" = false
    ∧ optimizeUnusedDeclarations (dceEnvOf (runAnalyzerPasses programC8)) bodyC8
        = mkN .BODY "" [mkN .ASSIGNMENT "" [mkN .ARRAY_ACCESS "" [ident "arr", ident "i"], ilit "7"],
                        mkN .RETURN_STMT "" [ilit "0"]] := by
  rw [envC8, usageC8]
  exact ⟨by decide, rfl, rfl, rfl, by decide⟩

/-! ## Memory-section page count (claim C5) -/

/-- C5: the claim says the declared page count covers the bytes of *all*
record/array variables.  What the code computes is
`clamp(ceil((globalMemoryOffset + 65535) / 65536))` over the offset as it
stands when the memory section is built — after global layout but before
`buildCodeSection` assigns offsets to function-local arrays and records
(see `C5_memory_section_counterexample`). -/
theorem C5_memory_pages (st : WState) (h : 0 ≤ st.globalMemoryOffset) :
    totalMemoryPages st = min 1024 (max 1 (Int.tdiv (st.globalMemoryOffset + 65535) 65536))
    ∧ 1 ≤ totalMemoryPages st := by
  have hnn : 0 ≤ st.globalMemoryOffset + 65535 := by omega
  simp only [totalMemoryPages]
  rw [Int.tdiv_eq_ediv hnn (by omega)]
  constructor
  · split
    · next h0 => omega
    · next h0 =>
        split
        · next h1 => omega
        · next h1 => omega
  · split
    · split <;> omega
    · split <;> omega

theorem C5_memory_pages_witness :
    0 ≤ (wstateForMain programC5).globalMemoryOffset
    ∧ (totalMemoryPages (wstateForMain programC5)
        = min 1024 (max 1 (Int.tdiv ((wstateForMain programC5).globalMemoryOffset + 65535) 65536))
      ∧ 1 ≤ totalMemoryPages (wstateForMain programC5)) :=
  ⟨by decide, C5_memory_pages (wstateForMain programC5) (by decide)⟩

/-- The memory section of `programC5` is built while `globalMemoryOffset`
is still 0 and declares one page, yet laying out `main`'s locals drives the
offset to 400000 bytes — seven pages would be needed to cover the offsets
the code section then bakes into address computations. -/
theorem C5_memory_section_counterexample :
    compiledMemoryPages programC5 = some 1
    ∧ (wstateForMain programC5).globalMemoryOffset = 400000
    ∧ totalMemoryPages (wstateForMain programC5) = 7
    ∧ ¬ ((wstateForMain programC5).globalMemoryOffset ≤ 1 * 65536) := by
  refine ⟨by decide, by decide, by decide, by decide⟩

/-! ## Routine removal (claim C7) -/

theorem routineNames_nil : routineNames [] = [] := rfl

theorem routineNames_cons (c : ASTNode) (cs : List ASTNode) :
    routineNames (c :: cs)
      = (if isRoutineDeclChild c then [c.val] else []) ++ routineNames cs := by
  simp only [routineNames, List.filter_cons]
  split
  · simp
  · simp

theorem routineNames_append (a b : List ASTNode) :
    routineNames (a ++ b) = routineNames a ++ routineNames b := by
  simp [routineNames, List.filter_append]

theorem routineNames_singleton (c : ASTNode) :
    routineNames [c] = if isRoutineDeclChild c then [c.val] else [] := by
  rw [routineNames_cons, routineNames_nil, List.append_nil]

theorem removeAssign_typ (w : String) (c : ASTNode) :
    (removeAssignmentsToVariable w c).typ = c.typ
    ∧ (removeAssignmentsToVariable w c).val = c.val := by
  cases c with
  | node t v cs =>
    simp only [removeAssignmentsToVariable]
    split
    · exact ⟨rfl, rfl⟩
    · exact ⟨rfl, rfl⟩

theorem removeAssign_isRoutine (w : String) (c : ASTNode) :
    isRoutineDeclChild (removeAssignmentsToVariable w c) = isRoutineDeclChild c := by
  simp [isRoutineDeclChild, (removeAssign_typ w c).1]

theorem remAssignBody_routineNames (w : String) (cs : List ASTNode) :
    routineNames (remAssignBody w cs) = routineNames cs := by
  induction cs with
  | nil => rfl
  | cons c cs ih =>
    simp only [remAssignBody]
    split
    · next h =>
      rw [ih, routineNames_cons]
      have hr : isRoutineDeclChild c = false := by
        simp [isRoutineDeclChild, h.1]
      rw [hr]
      simp
    · next h =>
      rw [routineNames_cons, routineNames_cons, ih, removeAssign_isRoutine,
          (removeAssign_typ w c).2]

theorem remAssignMap_routineNames (w : String) (cs : List ASTNode) :
    routineNames (remAssignMap w cs) = routineNames cs := by
  induction cs with
  | nil => rfl
  | cons c cs ih =>
    simp only [remAssignMap]
    rw [routineNames_cons, routineNames_cons, ih, removeAssign_isRoutine,
        (removeAssign_typ w c).2]

theorem removeAssign_children_routineNames (w : String) (n : ASTNode) :
    routineNames (removeAssignmentsToVariable w n).children = routineNames n.children := by
  cases n with
  | node t v cs =>
    simp only [removeAssignmentsToVariable]
    split
    · simp only [ASTNode.children]
      exact remAssignBody_routineNames w cs
    · simp only [ASTNode.children]
      exact remAssignMap_routineNames w cs

theorem scrubFold_routineNames (ws : List String) (n : ASTNode) :
    routineNames (ws.foldl (fun nd w => removeAssignmentsToVariable w nd) n).children
      = routineNames n.children := by
  induction ws generalizing n with
  | nil => rfl
  | cons w ws ih =>
    rw [List.foldl_cons, ih, removeAssign_children_routineNames]

theorem puChild_routineNames (env : DceEnv) (wo : List String) (c : ASTNode)
    (h : c.typ ≠ .ASSIGNMENT ∨ ∀ d ∈ c.children, isRoutineDeclChild d = false) :
    routineNames (processUnusedChild env wo c).1
      = (if isRoutineDeclChild c && keepRoutine env.called c then [c.val] else []) := by
  cases c with
  | node t v cs =>
    by_cases h1 : (ASTNode.node t v cs).typ = .VAR_DECL
    · have hr : isRoutineDeclChild (ASTNode.node t v cs) = false := by
        simp only [ASTNode.typ] at h1
        simp [isRoutineDeclChild, ASTNode.typ, h1]
      simp only [processUnusedChild, if_pos h1, hr, Bool.false_and, Bool.false_eq_true,
        if_false]
      repeat' split
      all_goals simp [routineNames_singleton, routineNames_nil, hr]
    · by_cases h2 : (ASTNode.node t v cs).typ = .ASSIGNMENT
      · have hr : isRoutineDeclChild (ASTNode.node t v cs) = false := by
          simp only [ASTNode.typ] at h2
          simp [isRoutineDeclChild, ASTNode.typ, h2]
        have hch : ∀ d ∈ cs, isRoutineDeclChild d = false :=
          h.resolve_left (not_not_intro h2)
        rcases cs with _ | ⟨c0, _ | ⟨c1, rest⟩⟩
        · simp only [processUnusedChild, ASTNode.children, if_neg h1, if_pos h2, hr,
            Bool.false_and, Bool.false_eq_true, if_false]
          repeat' split
          all_goals simp [routineNames_singleton, routineNames_nil, hr]
        · simp only [processUnusedChild, ASTNode.children, if_neg h1, if_pos h2, hr,
            Bool.false_and, Bool.false_eq_true, if_false]
          repeat' split
          all_goals simp [routineNames_singleton, routineNames_nil, hr]
        · have hc1 : isRoutineDeclChild c1 = false := hch c1 (by simp)
          simp only [processUnusedChild, ASTNode.children, if_neg h1, if_pos h2, hr,
            Bool.false_and, Bool.false_eq_true, if_false]
          repeat' split
          all_goals simp [routineNames_singleton, routineNames_nil, hr, hc1]
      · by_cases h3 : (ASTNode.node t v cs).typ = .ROUTINE_DECL
          ∨ (ASTNode.node t v cs).typ = .ROUTINE_FORWARD_DECL
        · have hrT : isRoutineDeclChild (ASTNode.node t v cs) = true := by
            simp only [isRoutineDeclChild]
            exact decide_eq_true h3
          simp only [processUnusedChild, if_neg h1, if_neg h2, if_pos h3, hrT, Bool.true_and]
          by_cases kp : env.called.contains (ASTNode.node t v cs).val = true
            ∨ (ASTNode.node t v cs).val = "main" ∨ (ASTNode.node t v cs).val = "testRunner"
          · have hk : keepRoutine env.called (ASTNode.node t v cs) = true := decide_eq_true kp
            rw [if_pos kp, hk]
            simp [routineNames_singleton, hrT]
          · have hk : keepRoutine env.called (ASTNode.node t v cs) = false := by
              simp only [keepRoutine]
              exact decide_eq_false kp
            rw [if_neg kp, hk]
            simp [routineNames_nil]
        · have hrF : isRoutineDeclChild (ASTNode.node t v cs) = false := by
            simp only [isRoutineDeclChild]
            exact decide_eq_false h3
          simp only [processUnusedChild, if_neg h1, if_neg h2, if_neg h3, hrF, Bool.false_and,
            Bool.false_eq_true, if_false]
          simp [routineNames_singleton, hrF]

theorem pucs_routineNames (env : DceEnv) (wo : List String) (cs : List ASTNode)
    (h : ∀ c ∈ cs, c.typ ≠ .ASSIGNMENT ∨ ∀ d ∈ c.children, isRoutineDeclChild d = false) :
    routineNames (processUnusedChildren env wo cs).1
      = routineNames (cs.filter (fun c => keepRoutine env.called c)) := by
  induction cs with
  | nil => rfl
  | cons c cs ih =>
    have hc := puChild_routineNames env wo c (h c (by simp))
    have ihh := ih (fun d hd => h d (by simp [hd]))
    simp only [processUnusedChildren, routineNames_append, hc, ihh, List.filter_cons]
    by_cases hk : keepRoutine env.called c
    · rw [if_pos hk, routineNames_cons]
      by_cases hr : isRoutineDeclChild c
      · rw [if_pos hr]
        simp [hr, hk]
      · simp [hr, hk]
    · rw [if_neg hk]
      simp [hk]

/-- C7: for any node whose assignment children carry no routine-typed
operands (every parser-built AST), the routine declarations surviving
`optimizeUnusedDeclarations` are exactly those whose name is in the called
set or is one of the entry points `main` / `testRunner` — a routine
declaration (full or forward) is removed iff it is uncalled and not an
entry point. -/
theorem C7_routine_removal (env : DceEnv) (t : ASTNodeType) (v : String) (cs : List ASTNode)
    (h : ∀ c ∈ cs, c.typ ≠ .ASSIGNMENT ∨ ∀ d ∈ c.children, isRoutineDeclChild d = false) :
    routineNames (optimizeUnusedDeclarations env (ASTNode.node t v cs)).children
      = routineNames (cs.filter (fun c => keepRoutine env.called c)) := by
  simp only [optimizeUnusedDeclarations]
  rw [scrubFold_routineNames]
  simp only [ASTNode.children]
  exact pucs_routineNames env _ cs h

theorem C7_routine_removal_witness :
    routineNames (optimizeUnusedDeclarations ⟨[], [], [], [], [], []⟩
        (ASTNode.node .PROGRAM "" programC7.children)).children = ["main"] := by
  have h := C7_routine_removal ⟨[], [], [], [], [], []⟩ .PROGRAM "" programC7.children
    (by
      intro c hc
      simp only [programC7, mkN, prim, ilit, ASTNode.children, List.mem_cons,
        List.not_mem_nil, or_false] at hc
      rcases hc with rfl | rfl
      · exact Or.inl (by simp [ASTNode.typ])
      · exact Or.inl (by simp [ASTNode.typ]))
  rw [h]
  decide

/-! ## Division and modulo under constant folding (claim C9) -/

/-- C9: integer division is never folded (for any integer-literal operands
the `BINARY_OP "/"` node is left unchanged); integer modulo folds to
`Int.tmod` only for a nonzero divisor and a modulo by literal zero is left
in place; real division folds only when the divisor parses to a nonzero
value, and a real division by literal zero is left in place. -/
theorem C9_division_not_folded (s t : String) (a b : Int)
    (h1 : parseIntLL s = some a) (h2 : parseIntLL t = some b) :
    binFold "/" (ilit s) (ilit t) = none
    ∧ foldConstantsInPlace (mkN .BINARY_OP "/" [ilit s, ilit t])
        = mkN .BINARY_OP "/" [ilit s, ilit t]
    ∧ binFold "%" (ilit s) (ilit t)
        = (if b = 0 then none else some (.i (toString (Int.tmod a b))))
    ∧ (b = 0 → foldConstantsInPlace (mkN .BINARY_OP "%" [ilit s, ilit t])
        = mkN .BINARY_OP "%" [ilit s, ilit t])
    ∧ binFold "/" (rlit s) (rlit t)
        = (match parseRealD s, parseRealD t with
           | some qa, some qb =>
               if qb = 0 then none else some (.r (doubleToString (qa / qb)))
           | _, _ => none)
    ∧ (parseRealD t = some 0 → foldConstantsInPlace (mkN .BINARY_OP "/" [rlit s, rlit t])
        = mkN .BINARY_OP "/" [rlit s, rlit t]) := by
  have hdiv : binFold "/" (ilit s) (ilit t) = none := by
    simp only [binFold, isCmpOp, isIntLit, isRealLit, isBoolLit, ilit, ASTNode.typ, ASTNode.val]
    cases parseIntLL s <;> cases parseIntLL t <;> simp
  have hmod : binFold "%" (ilit s) (ilit t)
      = (if b = 0 then none else some (.i (toString (Int.tmod a b)))) := by
    simp only [binFold, isCmpOp, isIntLit, isRealLit, isBoolLit, ilit, ASTNode.typ, ASTNode.val]
    simp only [h1, h2]
    by_cases hb : b = 0 <;> simp [hb]
  have hrdiv : binFold "/" (rlit s) (rlit t)
      = (match parseRealD s, parseRealD t with
         | some qa, some qb =>
             if qb = 0 then none else some (.r (doubleToString (qa / qb)))
         | _, _ => none) := by
    simp only [binFold, isCmpOp, isIntLit, isRealLit, isBoolLit, rlit, ASTNode.typ, ASTNode.val]
    cases hs : parseRealD s <;> cases ht : parseRealD t <;> simp [hs, ht]
  refine ⟨hdiv, ?_, hmod, ?_, hrdiv, ?_⟩
  · show foldStep .BINARY_OP "/" (foldChildren [ilit s, ilit t]) = _
    have hlit : foldChildren [ilit s, ilit t] = [ilit s, ilit t] := rfl
    rw [hlit]
    show (match binFold "/" (ilit s) (ilit t) with
          | some l => l.toNode
          | none => ASTNode.node .BINARY_OP "/" (ilit s :: ilit t :: [])) = _
    rw [hdiv]
    rfl
  · intro hb
    show foldStep .BINARY_OP "%" (foldChildren [ilit s, ilit t]) = _
    have hlit : foldChildren [ilit s, ilit t] = [ilit s, ilit t] := rfl
    rw [hlit]
    show (match binFold "%" (ilit s) (ilit t) with
          | some l => l.toNode
          | none => ASTNode.node .BINARY_OP "%" (ilit s :: ilit t :: [])) = _
    rw [hmod, if_pos hb]
    rfl
  · intro ht0
    show foldStep .BINARY_OP "/" (foldChildren [rlit s, rlit t]) = _
    have hlitr : foldChildren [rlit s, rlit t] = [rlit s, rlit t] := rfl
    rw [hlitr]
    show (match binFold "/" (rlit s) (rlit t) with
          | some l => l.toNode
          | none => ASTNode.node .BINARY_OP "/" (rlit s :: rlit t :: [])) = _
    rw [hrdiv, ht0]
    cases hs : parseRealD s <;> simp [hs, mkN]

theorem C9_division_not_folded_witness :
    parseIntLL "8" = some 8 ∧ parseIntLL "0" = some 0
    ∧ (binFold "/" (ilit "8") (ilit "0") = none
       ∧ foldConstantsInPlace (mkN .BINARY_OP "/" [ilit "8", ilit "0"])
           = mkN .BINARY_OP "/" [ilit "8", ilit "0"]
       ∧ binFold "%" (ilit "8") (ilit "0")
           = (if (0 : Int) = 0 then none else some (.i (toString (Int.tmod 8 0))))
       ∧ ((0 : Int) = 0 → foldConstantsInPlace (mkN .BINARY_OP "%" [ilit "8", ilit "0"])
           = mkN .BINARY_OP "%" [ilit "8", ilit "0"])
       ∧ binFold "/" (rlit "8") (rlit "0")
           = (match parseRealD "8", parseRealD "0" with
              | some qa, some qb =>
                  if qb = 0 then none else some (.r (doubleToString (qa / qb)))
              | _, _ => none)
       ∧ (parseRealD "0" = some 0 → foldConstantsInPlace (mkN .BINARY_OP "/" [rlit "8", rlit "0"])
           = mkN .BINARY_OP "/" [rlit "8", rlit "0"])) :=
  ⟨by decide, by decide, C9_division_not_folded "8" "0" 8 0 (by decide) (by decide)⟩
